import Mathlib

/-!
# zigbee-shepherd: the coordinator-side Controller

A shallow embedding of `lib/components/controller.js`.  Asynchronous code is
embedded as explicit state passing: every callback that the JavaScript run time
may invoke (an event listener, a timer, the settlement of a promise owned by a
collaborator) is an event of a step function on the Controller's state.

The definitions come first, in the order of the source's concerns: the join
admission path (the `'ZDO:endDeviceAnnceInd'` listener installed by the
constructor and `endDeviceAnnceHdlr`), `request`, `reset` and `checkNvParams`,
the endpoint operations (`registerEp`, `deregisterEp`, `reRegisterEp`),
`permitJoin`, `remove` and `nextTransId`.  The theorems follow.
-/

namespace Controller

/-! ## Join admission: data -/

/-- Payload of a `'ZDO:endDeviceAnnceInd'` event, restricted to the fields the
handler reads (`data.nwkaddr`, `data.ieeeaddr`). -/
structure AnnceData where
  nwkaddr : Nat
  ieeeaddr : String
deriving DecidableEq, Repr

/-- An entry of `_joinQueue`: `{func, ieeeAddr}`.  `func` is the closure
`() => { this.endDeviceAnnceHdlr(data) }`; it is represented by the `data` it
captures. -/
structure PendingJoin where
  func : AnnceData
  ieeeAddr : String
deriving DecidableEq, Repr

/-- Where the promise chain of one `endDeviceAnnceHdlr` call stands.
`query1`: the first `simpleDescReq` is pending; `query2`: the retry issued by the
first `.fail` is pending; `incoming`: `'ZDO:devIncoming'` has been emitted and
`processIncoming.promise` is pending; `done`: the chain has ended. -/
inductive Stage where
  | query1
  | query2
  | incoming
  | done
deriving DecidableEq, Repr

/-- The closure state of one `endDeviceAnnceHdlr` call that went past the
already-online check.  `joinTimeout` is true while the closure variable
`joinTimeout` holds a timer (armed, neither fired nor cleared); `listening` is
true while the `once(joinEvent, ...)` listener is still registered. -/
structure Pipeline where
  data : AnnceData
  joinTimeout : Bool
  listening : Bool
  stage : Stage
deriving DecidableEq, Repr

/-- What the handler makes observable: `shepherd.emit('joining', {type, ieeeAddr})`,
`this.emit('ZDO:devIncoming', devInfo, ...)` and `shepherd.emit('error', ...)`.
The device description handed to `'ZDO:devIncoming'` is identified by the
announce it answers. -/
inductive Emitted where
  | joining (type : String) (ieeeAddr : String)
  | devIncoming (data : AnnceData)
  | error (ieeeAddr : String)
deriving DecidableEq, Repr

/-- The part of the Controller the join admission path reads and writes.
`immediates` are the `setImmediate` callbacks scheduled and not yet run, oldest
first; `pipelines` are the handler calls made so far, oldest first;
`onlineDevs` are the addresses for which `shepherd._findDevByAddr` returns a
device whose `status` is `'online'`; `emitted` is the trace of emitted events,
oldest first. -/
structure JoinState where
  spinLock : Bool
  joinQueue : List PendingJoin
  immediates : List PendingJoin
  pipelines : List Pipeline
  onlineDevs : List String
  emitted : List Emitted
deriving DecidableEq, Repr

/-- The constructor: `_spinLock = false`, `_joinQueue = []`, nothing scheduled. -/
def JoinState.fresh : JoinState :=
  { spinLock := false, joinQueue := [], immediates := [], pipelines := [],
    onlineDevs := [], emitted := [] }

/-! ## Join admission: operations -/

/-- The dequeue block shared by the already-online branch and the `joinEvent`
listener:
`if (this._joinQueue.length) { next = this._joinQueue.shift(); if (next) setImmediate(next.func) else this._spinLock = false } else this._spinLock = false`.
Queue entries are objects, hence truthy, so the inner `else` is never taken. -/
def dequeue (s : JoinState) : JoinState :=
  match s.joinQueue with
  | [] => { s with spinLock := false }
  | next :: rest => { s with joinQueue := rest, immediates := s.immediates ++ [next] }

/-- The name of the join event is `'ind:incoming:' + ieeeaddr`, so a listener is
identified by the address of the pipeline that registered it. -/
def Pipeline.listensTo (p : Pipeline) (addr : String) : Bool :=
  p.listening && p.data.ieeeaddr == addr

/-- The value of `this.listenerCount(joinEvent)` for the join event of `addr`. -/
def listenerCount (ps : List Pipeline) (addr : String) : Nat :=
  (ps.filter (fun p => p.listensTo addr)).length

/-- Runs the listeners of the join event of `addr` in registration order.  Each
is a `once` listener: it is removed, clears the timer of its own closure
(`if (joinTimeout) { clearTimeout(joinTimeout); joinTimeout = null }`) and runs
the dequeue block. -/
def fireListeners (addr : String) : List Pipeline → JoinState → List Pipeline × JoinState
  | [], s => ([], s)
  | p :: ps, s =>
    if p.listensTo addr then
      let r := fireListeners addr ps (dequeue s)
      ({ p with listening := false, joinTimeout := false } :: r.1, r.2)
    else
      let r := fireListeners addr ps s
      (p :: r.1, r.2)

/-- Models `this.emit(joinEvent, '__timeout__')` for the join event of `addr`. -/
def emitJoinEvent (s : JoinState) (addr : String) : JoinState :=
  let r := fireListeners addr s.pipelines s
  { r.2 with pipelines := r.1 }

/-- Models `endDeviceAnnceHdlr(data)` up to its first suspension point.  If the
device is known and online the dequeue block runs and nothing else happens.
Otherwise the 30 s timer is armed, the `once(joinEvent)` listener is registered,
`'joining'`/`associating` is emitted and the first `simpleDescReq` is issued. -/
def endDeviceAnnceHdlr (s : JoinState) (data : AnnceData) : JoinState :=
  if s.onlineDevs.contains data.ieeeaddr then
    dequeue s
  else
    { s with
      pipelines := s.pipelines ++
        [{ data := data, joinTimeout := true, listening := true, stage := Stage.query1 }],
      emitted := s.emitted ++ [Emitted.joining "associating" data.ieeeaddr] }

/-- The loop of the announce listener:
`for (i ...) if (this._joinQueue[i].ieeeAddr === data.ieeeaddr) return`. -/
def inJoinQueue (q : List PendingJoin) (addr : String) : Bool :=
  q.any (fun e => e.ieeeAddr == addr)

/-- The `'ZDO:endDeviceAnnceInd'` listener installed by the constructor. -/
def onEndDeviceAnnceInd (s : JoinState) (data : AnnceData) : JoinState :=
  if s.spinLock then
    if inJoinQueue s.joinQueue data.ieeeaddr then
      s
    else
      { s with joinQueue := s.joinQueue ++ [{ func := data, ieeeAddr := data.ieeeaddr }] }
  else
    endDeviceAnnceHdlr { s with spinLock := true } data

/-- Replaces pipeline `i`. -/
def setPipeline (s : JoinState) (i : Nat) (p : Pipeline) : JoinState :=
  { s with pipelines := s.pipelines.set i p }

/-- The `.then((devInfo) => ...)` that follows a successful description query:
clears the timer of the closure, emits `'ZDO:devIncoming'` and waits for
`processIncoming.promise`. -/
def onDescription (s : JoinState) (i : Nat) (p : Pipeline) : JoinState :=
  let s1 := setPipeline s i { p with joinTimeout := false, stage := Stage.incoming }
  { s1 with emitted := s1.emitted ++ [Emitted.devIncoming p.data] }

/-- The last `.then(() => { this.emit(joinEvent, '__timeout__') })`. -/
def onIncomingDone (s : JoinState) (i : Nat) (p : Pipeline) : JoinState :=
  emitJoinEvent (setPipeline s i { p with stage := Stage.done }) p.data.ieeeaddr

/-- The last `.fail(() => ...)`: emits `'error'` and `'joining'`/`error` on the
shepherd, then the join event. -/
def onPipelineFail (s : JoinState) (i : Nat) (p : Pipeline) : JoinState :=
  let s1 := setPipeline s i { p with stage := Stage.done }
  let s2 := { s1 with emitted := s1.emitted ++
    [Emitted.error p.data.ieeeaddr, Emitted.joining "error" p.data.ieeeaddr] }
  emitJoinEvent s2 p.data.ieeeaddr

/-- The callback of `setTimeout(..., 30000)`:
`if (this.listenerCount(joinEvent)) { this.emit(joinEvent, ...); shepherd.emit('joining', {type: 'timeout', ...}) }; joinTimeout = null`. -/
def onJoinTimeout (s : JoinState) (i : Nat) (p : Pipeline) : JoinState :=
  let s1 :=
    if listenerCount s.pipelines p.data.ieeeaddr ≠ 0 then
      let s2 := emitJoinEvent s p.data.ieeeaddr
      { s2 with emitted := s2.emitted ++ [Emitted.joining "timeout" p.data.ieeeaddr] }
    else s
  match s1.pipelines[i]? with
  | some q => setPipeline s1 i { q with joinTimeout := false }
  | none => s1

/-- Everything that can happen to the join admission path.  `devStatus` is the
environment changing the device table of the shepherd; `immediate` is the event
loop running the oldest scheduled `setImmediate` callback; the others settle the
promise a pipeline is waiting for, or fire its timer. -/
inductive JoinEvent where
  | announce (data : AnnceData)
  | devStatus (ieeeAddr : String) (online : Bool)
  | immediate
  | queryOk (i : Nat)
  | queryFail (i : Nat)
  | incomingResolve (i : Nat)
  | incomingReject (i : Nat)
  | timeout (i : Nat)
deriving DecidableEq, Repr

/-- One turn of the event loop.  An event that is not enabled (a settlement for a
pipeline that is not waiting for it, a timer that is not armed, an empty
`setImmediate` queue) leaves the state unchanged. -/
def JoinState.step (s : JoinState) : JoinEvent → JoinState
  | JoinEvent.announce data => onEndDeviceAnnceInd s data
  | JoinEvent.devStatus addr online =>
    { s with onlineDevs :=
        if online then addr :: s.onlineDevs else s.onlineDevs.filter (fun a => a != addr) }
  | JoinEvent.immediate =>
    match s.immediates with
    | [] => s
    | next :: rest => endDeviceAnnceHdlr { s with immediates := rest } next.func
  | JoinEvent.queryOk i =>
    match s.pipelines[i]? with
    | some p =>
      if p.stage = Stage.query1 ∨ p.stage = Stage.query2 then onDescription s i p else s
    | none => s
  | JoinEvent.queryFail i =>
    match s.pipelines[i]? with
    | some p =>
      if p.stage = Stage.query1 then setPipeline s i { p with stage := Stage.query2 }
      else if p.stage = Stage.query2 then onPipelineFail s i p
      else s
    | none => s
  | JoinEvent.incomingResolve i =>
    match s.pipelines[i]? with
    | some p => if p.stage = Stage.incoming then onIncomingDone s i p else s
    | none => s
  | JoinEvent.incomingReject i =>
    match s.pipelines[i]? with
    | some p => if p.stage = Stage.incoming then onPipelineFail s i p else s
    | none => s
  | JoinEvent.timeout i =>
    match s.pipelines[i]? with
    | some p => if p.joinTimeout then onJoinTimeout s i p else s
    | none => s

/-- Runs a sequence of events from a state. -/
def JoinState.run (s : JoinState) (evs : List JoinEvent) : JoinState :=
  evs.foldl JoinState.step s

/-- The addresses held by the backlog, head first. -/
def queueAddrs (s : JoinState) : List String :=
  s.joinQueue.map (fun e => e.ieeeAddr)

/-- The number of registered join-event listeners, over all addresses. -/
def listeners (ps : List Pipeline) : Nat :=
  (ps.filter (fun p => p.listening)).length

/-- The number of pipelines whose promise chain has not ended: a description
query or the device-incoming callback is still pending. -/
def inFlight (ps : List Pipeline) : Nat :=
  (ps.filter (fun p => p.stage != Stage.done)).length

/-- The number of holders of the admission slot: registered join-event listeners
plus dequeued starts that `setImmediate` has not run yet. -/
def slots (s : JoinState) : Nat :=
  listeners s.pipelines + s.immediates.length

/-- The invariant of the join admission path. -/
structure JoinInv (s : JoinState) : Prop where
  nodup : (queueAddrs s).Nodup
  slot : slots s = if s.spinLock then 1 else 0
  idle : s.spinLock = false → s.joinQueue = []

/-! ## Requests -/

/-- A JavaScript value that is a string or a number: what
`proving.stringOrNumber` lets through for `subsys`, `cmdId` and `mode`. -/
inductive StrOrNum where
  | str (s : String)
  | num (n : Int)
deriving DecidableEq, Repr

/-- String conversion of the value, as `'...' + x` performs it: a string as it
is, an integer in decimal (which is what the run time prints below `1e21`, the
status bytes of the firmware among them). -/
def StrOrNum.toJsString : StrOrNum → String
  | StrOrNum.str s => s
  | StrOrNum.num n => toString n

/-- A JavaScript `Error` object, identified by its `message`. -/
structure JsError where
  message : String
deriving DecidableEq, Repr

/-- A response object: `status` is `none` when the object has no own `status`
property, `value` is the content of the `value` buffer of a read response
(`none` when absent). -/
structure Rsp where
  status : Option StrOrNum
  value : Option (List Nat)
deriving DecidableEq, Repr

/-- What a promise is rejected with: an `Error` object; a plain value
(`Q.reject('reset')`, `Q.reject(rsp.status)`); or the `TypeError` the run time
throws when a property of `undefined` is read or a `const` binding is assigned
(its message is engine text). -/
inductive Rejection where
  | error (e : JsError)
  | value (v : StrOrNum)
  | typeError
deriving DecidableEq, Repr

/-- The value of `err.message` for a rejection, `none` for `undefined`. -/
def Rejection.message : Rejection → Option String
  | Rejection.error e => some e.message
  | Rejection.value _ => none
  | Rejection.typeError => none

/-- A settled promise. -/
inductive Settled (α : Type) where
  | resolved (a : α)
  | rejected (r : Rejection)
deriving DecidableEq, Repr

/-- An entry of the `nvParams` table of `config/nv_start_options.js`:
an item id, a length and the bytes of the value. -/
structure NvEntry where
  id : Nat
  len : Nat
  value : List Nat
deriving DecidableEq, Repr

/-- The value of `ZSC.AF.networkLatencyReq.NO_LATENCY_REQS` in the
`zstack-constants` package. -/
def NO_LATENCY_REQS : Nat := 0

/-- The object built by `makeRegParams`. -/
structure RegParams where
  endpoint : Nat
  appprofid : Nat
  appdeviceid : Nat
  appdevver : Nat
  latencyreq : Nat
  appnuminclusters : Nat
  appinclusterlist : List Nat
  appnumoutclusters : Nat
  appoutclusterlist : List Nat
deriving DecidableEq, Repr

/-- The argument objects (`valObj`) the Controller hands to `request`:
`{type}` of a reset request, an `nvParams` entry, `{endpoint}` of an AF delete,
the registration parameters, the arguments of `mgmtPermitJoinReq` and of
`mgmtLeaveReq`, and any other plain object, given by its numeric fields. -/
inductive ValObj where
  | resetReq (type : Nat)
  | nv (entry : NvEntry)
  | afDelete (endpoint : Nat)
  | afRegister (params : RegParams)
  | mgmtPermitJoinReq (addrmode dstaddr : Nat) (duration : ℚ) (tcsignificance : Nat)
  | mgmtLeaveReq (dstaddr : Nat) (deviceaddress : String) (removechildren_rejoin : Nat)
  | other (fields : List (String × Int))
deriving DecidableEq, Repr

/-- A request as it reaches a collaborator.  `viaZdo` tells whether it went to
`this._zdo.request(cmdId, valObj, rspHdlr)` or to
`this._znp.request(subsys, cmdId, valObj, rspHdlr)`; `subsys` is the subsystem
after upper-casing. -/
structure Request where
  viaZdo : Bool
  subsys : StrOrNum
  cmdId : StrOrNum
  valObj : ValObj
deriving DecidableEq, Repr

/-- The arguments with which a collaborator calls `rspHdlr(err, rsp)`: `err` is
`none` when falsy, `rsp` is `none` when `undefined`. -/
structure Outcome where
  err : Option JsError
  rsp : Option Rsp
deriving DecidableEq, Repr

/-- The transport and the ZDO codec, as seen from the Controller: the outcome of
a request may depend on how many requests were issued before it and on the
request itself. -/
abbrev Transport := Nat → Request → Outcome

/-- Models `if (_.isString(subsys)) { subsys = subsys.toUpperCase() }` with the
upper-casing of the ASCII letters, which is `toUpperCase` on the names the
Controller itself passes and on every name that upper-cases to `'ZDO'` or
`'AF'`; other letters are left as they are, where `toUpperCase` maps them too.
`upperCaseWith` is the same for the upper-casing of the run time. -/
def upperCase : StrOrNum → StrOrNum
  | StrOrNum.str s => StrOrNum.str ⟨s.data.map Char.toUpper⟩
  | StrOrNum.num n => StrOrNum.num n

/-- The test `subsys === 'ZDO' || subsys === 5` on the upper-cased subsystem. -/
def isZdo (subsys : StrOrNum) : Bool :=
  subsys == StrOrNum.str "ZDO" || subsys == StrOrNum.num 5

/-- The callback `rspHdlr(err, rsp)` of `request`, for the upper-cased subsystem
`subsys`:
`if (err) reject(err) else if ((subsys !== 'ZDO' && subsys !== 5) && rsp && rsp.hasOwnProperty('status') && rsp.status !== 0) reject(new Error('rsp error: ' + rsp.status)) else resolve(rsp)`. -/
def rspHdlr (subsys : StrOrNum) (o : Outcome) : Settled (Option Rsp) :=
  match o.err with
  | some err => Settled.rejected (Rejection.error err)
  | none =>
    match o.rsp with
    | some rsp =>
      match rsp.status with
      | some status =>
        if !isZdo subsys && status != StrOrNum.num 0 then
          Settled.rejected (Rejection.error ⟨"rsp error: " ++ status.toJsString⟩)
        else Settled.resolved o.rsp
      | none => Settled.resolved o.rsp
    | none => Settled.resolved o.rsp

/-- The request `request(subsys, cmdId, valObj)` hands over, and to whom. -/
def mkRequest (subsys cmdId : StrOrNum) (valObj : ValObj) : Request :=
  { viaZdo := isZdo (upperCase subsys), subsys := upperCase subsys, cmdId := cmdId,
    valObj := valObj }

/-- Models `request(subsys, cmdId, valObj)` against a transport on which
`issued` requests were issued before: the request handed over and how the
returned promise settles. -/
def request (t : Transport) (issued : List Request) (subsys cmdId : StrOrNum)
    (valObj : ValObj) : Settled (Option Rsp) × List Request :=
  (rspHdlr (upperCase subsys) (t issued.length (mkRequest subsys cmdId valObj)),
    issued ++ [mkRequest subsys cmdId valObj])

/-- The arguments with which the collaborator answers `request(subsys, cmdId, valObj)`
when `issued` requests were issued before. -/
def outcomeOf (t : Transport) (issued : List Request) (subsys cmdId : StrOrNum)
    (valObj : ValObj) : Outcome :=
  t issued.length (mkRequest subsys cmdId valObj)

/-! ## Reset and the non-volatile parameters -/

/-- The `nvParams` table of `config/nv_start_options.js`, restricted to the
entries the Controller uses.  The table is a module-level object; its content is
taken as given. -/
structure NvParams where
  startupOption : NvEntry
  panId : NvEntry
  extPanId : NvEntry
  channelList : NvEntry
  logicalType : NvEntry
  precfgkey : NvEntry
  precfgkeysEnable : NvEntry
  securityMode : NvEntry
  zdoDirectCb : NvEntry
deriving DecidableEq, Repr

/-- A record of one invocation of `reset`: the mode and the value of
`_nvChanged` on entry.  Kept as a trace, the source has no such field. -/
structure ResetCall where
  mode : StrOrNum
  nvChanged : Bool
deriving DecidableEq, Repr

/-- The part of the Controller used by `reset` and `checkNvParams`.
`nvChanged` is `this._nvChanged` (never initialised, so falsy at first);
`issued` are the requests handed over so far, oldest first. -/
structure Ctrl where
  nvParams : NvParams
  nvChanged : Bool
  resetting : Bool
  issued : List Request
  resetCalls : List ResetCall
deriving DecidableEq, Repr

/-- How the promise returned by `reset` stands when the chain has run:
resolved, rejected, or pending on the one-shot `'_reset'` listener after
`'SYS:resetInd'` was emitted. -/
inductive ResetResult where
  | resolved
  | rejected (r : Rejection)
  | awaitingResetInd
deriving DecidableEq, Repr

/-- Reads `value[0]`; `none` is `undefined`. -/
def jsFirst (xs : List Nat) : Option Nat := xs.head?

/-- Writes `value[0] = v`.  `reset` writes `undefined` only when `value` was
empty when it read `value[0]`; the array then holds `undefined` alone, which
reads like the empty array. -/
def jsSetFirst (v : Option Nat) (xs : List Nat) : List Nat :=
  match v with
  | some n => n :: xs.tail
  | none => []

/-- Models `nvParams.startupOption.value[0] = v`. -/
def setStartupOption (c : Ctrl) (v : Option Nat) : Ctrl :=
  { c with nvParams := { c.nvParams with
      startupOption := { c.nvParams.startupOption with
        value := jsSetFirst v c.nvParams.startupOption.value } } }

/-- Models `this.request(subsys, cmdId, valObj)` on the Controller state. -/
def Ctrl.request (t : Transport) (c : Ctrl) (subsys cmdId : StrOrNum) (valObj : ValObj) :
    Settled (Option Rsp) × Ctrl :=
  ((Controller.request t c.issued subsys cmdId valObj).1,
    { c with issued := (Controller.request t c.issued subsys cmdId valObj).2 })

/-- The arguments of one step of a request sequence, read from `nvParams` when
the step runs. -/
abbrev Step := NvParams → StrOrNum × StrOrNum × ValObj

/-- The `steps` array of the hard reset. -/
def hardSteps : List Step :=
  [ fun _ => (StrOrNum.str "SYS", StrOrNum.str "resetReq", ValObj.resetReq 1),
    fun nv => (StrOrNum.str "SAPI", StrOrNum.str "writeConfiguration", ValObj.nv nv.startupOption),
    fun _ => (StrOrNum.str "SYS", StrOrNum.str "resetReq", ValObj.resetReq 1),
    fun nv => (StrOrNum.str "SAPI", StrOrNum.str "writeConfiguration", ValObj.nv nv.panId),
    fun nv => (StrOrNum.str "SAPI", StrOrNum.str "writeConfiguration", ValObj.nv nv.extPanId),
    fun nv => (StrOrNum.str "SAPI", StrOrNum.str "writeConfiguration", ValObj.nv nv.channelList),
    fun nv => (StrOrNum.str "SAPI", StrOrNum.str "writeConfiguration", ValObj.nv nv.logicalType),
    fun nv => (StrOrNum.str "SAPI", StrOrNum.str "writeConfiguration", ValObj.nv nv.precfgkey),
    fun nv => (StrOrNum.str "SAPI", StrOrNum.str "writeConfiguration",
      ValObj.nv nv.precfgkeysEnable),
    fun nv => (StrOrNum.str "SYS", StrOrNum.str "osalNvWrite", ValObj.nv nv.securityMode),
    fun nv => (StrOrNum.str "SAPI", StrOrNum.str "writeConfiguration", ValObj.nv nv.zdoDirectCb) ]

/-- Models `steps.reduce((soFar, fn) => soFar.then(fn), Q(0))`: a step runs
when the promise of the previous one has resolved; a rejection skips the
remaining steps.  The `.delay(n)` of a step postpones its resolution only. -/
def runSteps (t : Transport) : Ctrl → List Step → Settled Unit × Ctrl
  | c, [] => (Settled.resolved (), c)
  | c, fn :: rest =>
    match c.request t (fn c.nvParams).1 (fn c.nvParams).2.1 (fn c.nvParams).2.2 with
    | (Settled.resolved _, c1) => runSteps t c1 rest
    | (Settled.rejected r, c1) => (Settled.rejected r, c1)

/-- The function passed to `Q.fcall` by `reset`. -/
def resetBody (t : Transport) (c : Ctrl) (mode : StrOrNum) (startupOption : Option Nat) :
    Settled Unit × Ctrl :=
  if mode = StrOrNum.str "soft" ∨ mode = StrOrNum.num 1 then
    match ({ c with resetting := true } : Ctrl).request t (StrOrNum.str "SYS")
        (StrOrNum.str "resetReq") (ValObj.resetReq 1) with
    | (Settled.resolved _, c1) => (Settled.resolved (), c1)
    | (Settled.rejected r, c1) => (Settled.rejected r, c1)
  else if mode = StrOrNum.str "hard" ∨ mode = StrOrNum.num 0 then
    let c1 : Ctrl := { c with resetting := true }
    let c2 := if c1.nvChanged ∧ startupOption ≠ some 2 then setStartupOption c1 (some 2) else c1
    runSteps t c2 hardSteps
  else
    (Settled.rejected (Rejection.error ⟨"Unknown reset mode."⟩), c)

/-- Models `reset(mode)`: the body, then the `.then` that clears `_resetting`
and either restores the startup option, clears `_nvChanged` and resolves, or
waits for `'_reset'`; the `.fail` only rejects the returned promise. -/
def reset (t : Transport) (c : Ctrl) (mode : StrOrNum) : ResetResult × Ctrl :=
  let startupOption := jsFirst c.nvParams.startupOption.value
  let c0 : Ctrl := { c with resetCalls := c.resetCalls ++ [⟨mode, c.nvChanged⟩] }
  match resetBody t c0 mode startupOption with
  | (Settled.resolved _, c1) =>
    let c2 : Ctrl := { c1 with resetting := false }
    if c2.nvChanged then
      (ResetResult.resolved, { setStartupOption c2 startupOption with nvChanged := false })
    else
      (ResetResult.awaitingResetInd, c2)
  | (Settled.rejected r, c1) => (ResetResult.rejected r, c1)

/-- One step of `checkNvParams`: reads the entry back and rejects with `'reset'`
when the bytes differ from the local value.  `bufToArray(rsp.value)` throws a
`TypeError` when there is no response object or no `value` in it. -/
def readStep (t : Transport) (c : Ctrl) (entry : NvParams → NvEntry) : Settled Unit × Ctrl :=
  match c.request t (StrOrNum.str "SAPI") (StrOrNum.str "readConfiguration")
      (ValObj.nv (entry c.nvParams)) with
  | (Settled.rejected r, c1) => (Settled.rejected r, c1)
  | (Settled.resolved rsp, c1) =>
    match rsp.bind (fun r => r.value) with
    | none => (Settled.rejected Rejection.typeError, c1)
    | some bytes =>
      if bytes = (entry c1.nvParams).value then (Settled.resolved (), c1)
      else (Settled.rejected (Rejection.value (StrOrNum.str "reset")), c1)

/-- The entries read back by the `steps` array of `checkNvParams`, in order. -/
def checkEntries : List (NvParams → NvEntry) :=
  [fun nv => nv.panId, fun nv => nv.channelList, fun nv => nv.precfgkey,
    fun nv => nv.precfgkeysEnable]

/-- Models the `steps.reduce(...)` chain of `checkNvParams`. -/
def runReads (t : Transport) : Ctrl → List (NvParams → NvEntry) → Settled Unit × Ctrl
  | c, [] => (Settled.resolved (), c)
  | c, entry :: rest =>
    match readStep t c entry with
    | (Settled.resolved _, c1) => runReads t c1 rest
    | (Settled.rejected r, c1) => (Settled.rejected r, c1)

/-- The test of the `.fail` of `checkNvParams`:
`err === 'reset' || err.message === 'rsp error: 2'`. -/
def wantsReset (r : Rejection) : Bool :=
  r == Rejection.value (StrOrNum.str "reset") || r.message == some "rsp error: 2"

/-- Models `checkNvParams()`. -/
def checkNvParams (t : Transport) (c : Ctrl) : ResetResult × Ctrl :=
  match runReads t c checkEntries with
  | (Settled.resolved _, c1) => (ResetResult.resolved, c1)
  | (Settled.rejected r, c1) =>
    if wantsReset r then reset t { c1 with nvChanged := true } (StrOrNum.str "hard")
    else (ResetResult.rejected r, c1)

/-- How the promise of a request settles when it is the `i`-th request (from 0)
the transport sees. -/
def settle (t : Transport) (i : Nat) (req : Request) : Settled (Option Rsp) :=
  rspHdlr req.subsys (t i req)

/-- The request a step issues. -/
def stepRequest (nv : NvParams) (fn : Step) : Request :=
  mkRequest (fn nv).1 (fn nv).2.1 (fn nv).2.2

/-- A request to the transport (not to the ZDO codec) with symbolic names. -/
def znpRequest (subsys cmdId : String) (valObj : ValObj) : Request :=
  { viaZdo := false, subsys := StrOrNum.str subsys, cmdId := StrOrNum.str cmdId,
    valObj := valObj }

/-- The order of the hard reset as the specification lists it: reset request;
write startup option; reset request; write pan id; write extended pan id; write
channel list; write logical type; write pre-configured key; write
pre-configured-key enable; write security mode; write direct-callback flag. -/
def hardResetSequence (nv : NvParams) : List Request :=
  [ znpRequest "SYS" "resetReq" (ValObj.resetReq 1),
    znpRequest "SAPI" "writeConfiguration" (ValObj.nv nv.startupOption),
    znpRequest "SYS" "resetReq" (ValObj.resetReq 1),
    znpRequest "SAPI" "writeConfiguration" (ValObj.nv nv.panId),
    znpRequest "SAPI" "writeConfiguration" (ValObj.nv nv.extPanId),
    znpRequest "SAPI" "writeConfiguration" (ValObj.nv nv.channelList),
    znpRequest "SAPI" "writeConfiguration" (ValObj.nv nv.logicalType),
    znpRequest "SAPI" "writeConfiguration" (ValObj.nv nv.precfgkey),
    znpRequest "SAPI" "writeConfiguration" (ValObj.nv nv.precfgkeysEnable),
    znpRequest "SYS" "osalNvWrite" (ValObj.nv nv.securityMode),
    znpRequest "SAPI" "writeConfiguration" (ValObj.nv nv.zdoDirectCb) ]

/-- The table as a hard reset started in `c` writes it: with the first byte of
the startup option forced to `0x02` when `_nvChanged` is set. -/
def hardNv (c : Ctrl) : NvParams :=
  if c.nvChanged ∧ jsFirst c.nvParams.startupOption.value ≠ some 2 then
    (setStartupOption c (some 2)).nvParams
  else c.nvParams

/-- The requests of `reqs` before index `k` all resolve, the first of them being
the `n`-th request the transport sees. -/
def ResolvesBefore (t : Transport) (n : Nat) (reqs : List Request) (k : Nat) : Prop :=
  ∀ j req, j < k → reqs[j]? = some req → ∃ rsp, settle t (n + j) req = Settled.resolved rsp

/-- The read request `checkNvParams` issues for an entry. -/
def readRequest (e : NvEntry) : Request :=
  znpRequest "SAPI" "readConfiguration" (ValObj.nv e)

/-- The read requests of `checkNvParams`, in the order the specification gives:
pan id, channel list, pre-configured key, pre-configured-key enable. -/
def readSequence (nv : NvParams) : List NvEntry :=
  [nv.panId, nv.channelList, nv.precfgkey, nv.precfgkeysEnable]

/-- How one step of `checkNvParams` settles when its read is the `i`-th request
the transport sees: the promise of `readStep` without the state. -/
def readVerdict (t : Transport) (i : Nat) (e : NvEntry) : Settled Unit :=
  match settle t i (readRequest e) with
  | Settled.rejected r => Settled.rejected r
  | Settled.resolved rsp =>
    match rsp.bind (fun r => r.value) with
    | none => Settled.rejected Rejection.typeError
    | some bytes =>
      if bytes = e.value then Settled.resolved ()
      else Settled.rejected (Rejection.value (StrOrNum.str "reset"))

/-- The reads of `es` before index `k` all return the locally held bytes, the
first of them being the `n`-th request the transport sees. -/
def MatchesBefore (t : Transport) (n : Nat) (es : List NvEntry) (k : Nat) : Prop :=
  ∀ j e, j < k → es[j]? = some e →
    ∃ rsp, settle t (n + j) (readRequest e) = Settled.resolved (some rsp) ∧
      rsp.value = some e.value

/-- A sample `nvParams` table. -/
def sampleNv : NvParams :=
  { startupOption := ⟨0x03, 1, [0x00]⟩, panId := ⟨0x83, 2, [0xFF, 0xFF]⟩,
    extPanId := ⟨0x2D, 8, [0xDD, 0xDD, 0xDD, 0xDD, 0xDD, 0xDD, 0xDD, 0xDD]⟩,
    channelList := ⟨0x84, 4, [0x00, 0x08, 0x00, 0x00]⟩, logicalType := ⟨0x87, 1, [0x00]⟩,
    precfgkey := ⟨0x62, 16, [1, 3, 5, 7, 9, 11, 13, 15, 0, 2, 4, 6, 8, 10, 12, 13]⟩,
    precfgkeysEnable := ⟨0x63, 1, [0x00]⟩, securityMode := ⟨0x64, 1, [0x01]⟩,
    zdoDirectCb := ⟨0x8F, 1, [0x01]⟩ }

/-- A Controller that has issued nothing yet, on the sample table. -/
def sampleCtrl (nvChanged : Bool) : Ctrl :=
  { nvParams := sampleNv, nvChanged := nvChanged, resetting := false, issued := [],
    resetCalls := [] }

/-- A transport that answers every request with status 0, except that the
`i`-th request (from 0) fails with the error `'request timeout'`. -/
def failingAt (i : Nat) : Transport :=
  fun j _ => if j = i then ⟨some ⟨"request timeout"⟩, none⟩
    else ⟨none, some ⟨some (StrOrNum.num 0), none⟩⟩

/-- A transport that answers every read with status 0 and the bytes `bytes`. -/
def readsBack (bytes : List Nat) : Transport :=
  fun _ _ => ⟨none, some ⟨some (StrOrNum.num 0), some bytes⟩⟩

/-! ## Endpoint registration -/

/-- A `Coordpoint` object, restricted to what the Controller reads from it
(`getEpId()`, `getProfId()`, `getDevId()`, the two cluster lists).  `oid` stands
for the identity of the object: `_.includes` compares by reference, so two
endpoints are the same only if they are the same object. -/
structure Coordpoint where
  oid : Nat
  epId : Nat
  profId : Nat
  devId : Nat
  inClusterList : List Nat
  outClusterList : List Nat
deriving DecidableEq, Repr

/-- Models `makeRegParams(loEp)`. -/
def makeRegParams (loEp : Coordpoint) : RegParams :=
  { endpoint := loEp.epId,
    appprofid := loEp.profId,
    appdeviceid := loEp.devId,
    appdevver := 0,
    latencyreq := NO_LATENCY_REQS,
    appnuminclusters := loEp.inClusterList.length,
    appinclusterlist := loEp.inClusterList,
    appnumoutclusters := loEp.outClusterList.length,
    appoutclusterlist := loEp.outClusterList }

/-- The part of the Controller used by the endpoint operations.  `coordEps` is
the object `this.getCoord().endpoints`, given by its own properties: key and
endpoint stored under it. -/
structure EpState where
  coordEps : List (Nat × Coordpoint)
  issued : List Request
deriving DecidableEq, Repr

/-- Models `_.includes(coordEps, loEp)`: some property of the object holds
`loEp`. -/
def includes (coordEps : List (Nat × Coordpoint)) (loEp : Coordpoint) : Bool :=
  coordEps.any (fun kv => kv.2 == loEp)

/-- Models `delete coordEps[key]`. -/
def deleteKey (coordEps : List (Nat × Coordpoint)) (key : Nat) : List (Nat × Coordpoint) :=
  coordEps.filter (fun kv => kv.1 != key)

/-- The error `deregisterEp` rejects with for an endpoint that is not tracked. -/
def notMaintained : Rejection :=
  Rejection.error ⟨"Endpoint not maintained by Coordinator, cannot be removed."⟩

/-- Models `deregisterEp(loEp)`. -/
def deregisterEp (t : Transport) (s : EpState) (loEp : Coordpoint) :
    Settled (Option Rsp) × EpState :=
  if !includes s.coordEps loEp then
    (Settled.rejected notMaintained, s)
  else
    match request t s.issued (StrOrNum.str "AF") (StrOrNum.str "delete")
        (ValObj.afDelete loEp.epId) with
    | (Settled.resolved rsp, issued) =>
      (Settled.resolved rsp, { coordEps := deleteKey s.coordEps loEp.epId, issued := issued })
    | (Settled.rejected r, issued) => (Settled.rejected r, { s with issued := issued })

/-- Models `reRegisterEp(loEp)`. -/
def reRegisterEp (t : Transport) (s : EpState) (loEp : Coordpoint) :
    Settled (Option Rsp) × EpState :=
  match deregisterEp t s loEp with
  | (Settled.resolved _, s1) =>
    ((request t s1.issued (StrOrNum.str "AF") (StrOrNum.str "register")
        (ValObj.afRegister (makeRegParams loEp))).1,
      { s1 with issued := (request t s1.issued (StrOrNum.str "AF") (StrOrNum.str "register")
        (ValObj.afRegister (makeRegParams loEp))).2 })
  | (Settled.rejected r, s1) => (Settled.rejected r, s1)

/-- Models `registerEp(loEp)`. -/
def registerEp (t : Transport) (s : EpState) (loEp : Coordpoint) :
    Settled (Option Rsp) × EpState :=
  match request t s.issued (StrOrNum.str "AF") (StrOrNum.str "register")
      (ValObj.afRegister (makeRegParams loEp)) with
  | (Settled.resolved rsp, issued) => (Settled.resolved rsp, { s with issued := issued })
  | (Settled.rejected err, issued) =>
    if err.message = some "rsp error: 184" then reRegisterEp t { s with issued := issued } loEp
    else (Settled.rejected err, { s with issued := issued })

/-- The AF register request for an endpoint. -/
def registerRequest (loEp : Coordpoint) : Request :=
  znpRequest "AF" "register" (ValObj.afRegister (makeRegParams loEp))

/-- The AF delete request for an endpoint id. -/
def deleteRequest (loEp : Coordpoint) : Request :=
  znpRequest "AF" "delete" (ValObj.afDelete loEp.epId)

/-- The endpoints object is keyed by endpoint id: every endpoint is stored under
its own `epId`, and (being an object) holds one property per key. -/
def KeyedById (coordEps : List (Nat × Coordpoint)) : Prop :=
  (coordEps.map (fun kv => kv.1)).Nodup ∧ ∀ kv ∈ coordEps, kv.1 = kv.2.epId

/-- A sample endpoint with the given identity and endpoint id. -/
def sampleEp (oid epId : Nat) : Coordpoint :=
  { oid := oid, epId := epId, profId := 0x0104, devId := 0x0005, inClusterList := [],
    outClusterList := [] }

/-- A transport that answers the `i`-th request (from 0) with the status
`statuses[i]`, and with status 0 beyond the list. -/
def answering (statuses : List Int) : Transport :=
  fun i _ => ⟨none, some ⟨some (StrOrNum.num (statuses.getD i 0)), none⟩⟩

/-! ## Permit join -/

/-- The part of the Controller used by `permitJoin`.  `permitJoinTime` is
`_permitJoinTime`, which `getNetInfo` reports as `joinTimeLeft`;
`permitJoinInterval` is the handle held by `_permitJoinInterval` (`none` for
`null`); `intervals` are the interval timers alive in the run time, by handle;
`nextTimer` is the handle the next `setInterval` returns; `emitted` are the
values emitted with `'permitJoining'`, oldest first. -/
structure PermitState where
  permitJoinTime : Int
  permitJoinInterval : Option Nat
  intervals : List Nat
  nextTimer : Nat
  issued : List Request
  emitted : List Int
deriving DecidableEq, Repr

/-- The constructor: `_permitJoinTime = 0`, `_permitJoinInterval = null`, no
timer. -/
def PermitState.fresh : PermitState :=
  { permitJoinTime := 0, permitJoinInterval := none, intervals := [], nextTimer := 0,
    issued := [], emitted := [] }

/-- Models `clearInterval(handle)`: the timer, if alive, is stopped; a `null`
handle does nothing. -/
def clearInterval (s : PermitState) (handle : Option Nat) : PermitState :=
  match handle with
  | none => s
  | some h => { s with intervals := s.intervals.filter (fun i => i != h) }

/-- The first `Q.fcall` of `permitJoin`: the address mode and destination for a
type, `none` when the type is not valid. -/
def joinScope (type : StrOrNum) : Option (Nat × Nat) :=
  if type = StrOrNum.num 0 ∨ type = StrOrNum.str "coord" then some (0x02, 0x0000)
  else if type = StrOrNum.num 1 ∨ type = StrOrNum.str "all" then some (0x0F, 0xFFFC)
  else none

/-- Models `permitJoin(time, type)`.  `time` is a JavaScript number; the
operations applied to it (comparison, `Math.floor`) are exact, so it is taken as
a rational. -/
def permitJoin (t : Transport) (s : PermitState) (time : ℚ) (type : StrOrNum) :
    Settled (Option Rsp) × PermitState :=
  match joinScope type with
  | none => (Settled.rejected (Rejection.error ⟨"Not a valid type."⟩), s)
  | some (addrmode, dstaddr) =>
    if time > 255 ∨ time < 0 then
      (Settled.rejected (Rejection.error ⟨"Jointime can only range from  0 to 255."⟩), s)
    else
      let s1 : PermitState := { s with permitJoinTime := ⌊time⌋ }
      match request t s1.issued (StrOrNum.str "ZDO") (StrOrNum.str "mgmtPermitJoinReq")
          (ValObj.mgmtPermitJoinReq addrmode dstaddr time 0) with
      | (Settled.rejected r, issued) => (Settled.rejected r, { s1 with issued := issued })
      | (Settled.resolved rsp, issued) =>
        let s2 : PermitState :=
          { s1 with issued := issued, emitted := s1.emitted ++ [s1.permitJoinTime] }
        if time ≠ 0 ∧ time ≠ 255 then
          let s3 := clearInterval s2 s2.permitJoinInterval
          (Settled.resolved rsp,
            { s3 with
              permitJoinInterval := some s3.nextTimer,
              intervals := s3.intervals ++ [s3.nextTimer],
              nextTimer := s3.nextTimer + 1 })
        else
          (Settled.resolved rsp, s2)

/-- Models `permitJoinCountdown()`: `return this._permitJoinTime -= 1`. -/
def permitJoinCountdown (s : PermitState) : Int × PermitState :=
  (s.permitJoinTime - 1, { s with permitJoinTime := s.permitJoinTime - 1 })

/-- One firing of the interval timer `handle`: the callback
`if (this.permitJoinCountdown() === 0) clearInterval(this._permitJoinInterval); this.emit('permitJoining', this._permitJoinTime)`.
A timer that is not alive does not fire. -/
def tick (s : PermitState) (handle : Nat) : PermitState :=
  if s.intervals.contains handle then
    let s1 := (permitJoinCountdown s).2
    let s2 := if (permitJoinCountdown s).1 = 0 then clearInterval s1 s1.permitJoinInterval else s1
    { s2 with emitted := s2.emitted ++ [s2.permitJoinTime] }
  else s

/-- Fires the timer `handle` `n` times. -/
def ticks (s : PermitState) (handle : Nat) : Nat → PermitState
  | 0 => s
  | n + 1 => ticks (tick s handle) handle n

/-- The management permit-join request, as it reaches the ZDO codec. -/
def permitRequest (addrmode dstaddr : Nat) (time : ℚ) : Request :=
  { viaZdo := true, subsys := StrOrNum.str "ZDO", cmdId := StrOrNum.str "mgmtPermitJoinReq",
    valObj := ValObj.mgmtPermitJoinReq addrmode dstaddr time 0 }

/-- The state `permitJoin` leaves when the request succeeds. -/
def permitJoined (s : PermitState) (addrmode dstaddr : Nat) (time : ℚ) : PermitState :=
  if time ≠ 0 ∧ time ≠ 255 then
    { permitJoinTime := ⌊time⌋,
      permitJoinInterval := some s.nextTimer,
      intervals := (clearInterval s s.permitJoinInterval).intervals ++ [s.nextTimer],
      nextTimer := s.nextTimer + 1,
      issued := s.issued ++ [permitRequest addrmode dstaddr time],
      emitted := s.emitted ++ [⌊time⌋] }
  else
    { s with
      permitJoinTime := ⌊time⌋,
      issued := s.issued ++ [permitRequest addrmode dstaddr time],
      emitted := s.emitted ++ [⌊time⌋] }

/-! ## Removing a device -/

/-- A `Device` object, restricted to what `remove` reads from it
(`getNwkAddr()`, `getIeeeAddr()`). -/
structure Device where
  nwkAddr : Nat
  ieeeAddr : String
deriving DecidableEq, Repr

/-- The `cfg` object of `remove`, restricted to the properties it reads.  A
field is `none` when the object has no such own property, and otherwise holds
the truthiness of the property (`!!cfg.reJoin`, `!!cfg.rmChildren`). -/
structure RemoveCfg where
  reJoin : Option Bool
  rmChildren : Option Bool
deriving DecidableEq, Repr

/-- How a variable is declared. -/
inductive Decl where
  | const
  | letOrVar
deriving DecidableEq, Repr

/-- Models the assignment `x = v` to a variable declared with `decl`.  The
right-hand side has been evaluated; assigning to a `const` binding then throws a
`TypeError` at run time, whatever the value. -/
def assign (decl : Decl) (v : Nat) : Except Rejection Nat :=
  match decl with
  | Decl.const => Except.error Rejection.typeError
  | Decl.letOrVar => Except.ok v

/-- What a call of `remove` comes to: it throws before returning a promise; or
the promise it returns resolves, is rejected with `rsp.status` (`none` for
`undefined`), or is rejected with the rejection of the request. -/
inductive RemoveResult where
  | threw (r : Rejection)
  | resolved
  | rejectedStatus (status : Option StrOrNum)
  | rejected (r : Rejection)
deriving DecidableEq, Repr

/-- A call of `remove`: its result, the requests issued so far and the `cfg`
object as the call leaves it. -/
structure RemoveOutcome where
  result : RemoveResult
  issued : List Request
  cfg : RemoveCfg
deriving DecidableEq, Repr

/-- The `.then((rsp) => { if (rsp.status !== 0 && rsp.status !== 'SUCCESS') return Q.reject(rsp.status) })`
of `remove`.  Reading `status` of `undefined` throws. -/
def leaveStatus (rsp : Option Rsp) : RemoveResult :=
  match rsp with
  | none => RemoveResult.rejected Rejection.typeError
  | some r =>
    if r.status ≠ some (StrOrNum.num 0) ∧ r.status ≠ some (StrOrNum.str "SUCCESS") then
      RemoveResult.rejectedStatus r.status
    else RemoveResult.resolved

/-- The body of `remove(dev, cfg)` for a variable `rmChildren_reJoin` declared
with `decl` and initialised to `0x00`: the defaults are written into `cfg`, the
two flag bits are assigned to the variable, and the leave request is issued. -/
def removeWith (decl : Decl) (t : Transport) (issued : List Request) (dev : Device)
    (cfg : RemoveCfg) : RemoveOutcome :=
  let rmChildren_reJoin : Nat := 0x00
  let reJoin : Bool := match cfg.reJoin with
    | some b => b
    | none => true
  let rmChildren : Bool := match cfg.rmChildren with
    | some b => b
    | none => false
  let cfg1 : RemoveCfg := { reJoin := some reJoin, rmChildren := some rmChildren }
  match assign decl (if reJoin then rmChildren_reJoin ||| 0x01 else rmChildren_reJoin) with
  | Except.error e => { result := RemoveResult.threw e, issued := issued, cfg := cfg1 }
  | Except.ok v1 =>
    match assign decl (if rmChildren then v1 ||| 0x02 else v1) with
    | Except.error e => { result := RemoveResult.threw e, issued := issued, cfg := cfg1 }
    | Except.ok v2 =>
      match request t issued (StrOrNum.str "ZDO") (StrOrNum.str "mgmtLeaveReq")
          (ValObj.mgmtLeaveReq dev.nwkAddr dev.ieeeAddr v2) with
      | (Settled.rejected r, issued1) =>
        { result := RemoveResult.rejected r, issued := issued1, cfg := cfg1 }
      | (Settled.resolved rsp, issued1) =>
        { result := leaveStatus rsp, issued := issued1, cfg := cfg1 }

/-- Models `remove(dev, cfg)`: the source declares
`const rmChildren_reJoin = 0x00`. -/
def remove (t : Transport) (issued : List Request) (dev : Device) (cfg : RemoveCfg) :
    RemoveOutcome :=
  removeWith Decl.const t issued dev cfg

/-- What the specification asks of `remove`: the same body with the flag byte a
per-call local that can be assigned. -/
def removeAsSpecified (t : Transport) (issued : List Request) (dev : Device)
    (cfg : RemoveCfg) : RemoveOutcome :=
  removeWith Decl.letOrVar t issued dev cfg

/-- The byte the specification gives for `removechildren_rejoin`:
`(reJoin ? 0x01 : 0) | (rmChildren ? 0x02 : 0)`, with `reJoin` defaulting to true
and `rmChildren` to false. -/
def leaveFlags (cfg : RemoveCfg) : Nat :=
  (if cfg.reJoin.getD true then 0x01 else 0) ||| (if cfg.rmChildren.getD false then 0x02 else 0)

/-- The management leave request for a device, as it reaches the ZDO codec. -/
def leaveRequest (dev : Device) (flags : Nat) : Request :=
  { viaZdo := true, subsys := StrOrNum.str "ZDO", cmdId := StrOrNum.str "mgmtLeaveReq",
    valObj := ValObj.mgmtLeaveReq dev.nwkAddr dev.ieeeAddr flags }

/-- A sample device. -/
def sampleDev : Device :=
  { nwkAddr := 0x1A2B, ieeeAddr := "0x00124b0001ce4beb" }

/-! ## The transaction counter -/

/-- Models `nextTransId` on the closure variable `transId` of one Controller:
`if (++transId > 255) { transId = 1 }; return transId`.  The result is the
returned value and the new `transId`. -/
def nextTransId (transId : Nat) : Nat × Nat :=
  if transId + 1 > 255 then (1, 1) else (transId + 1, transId + 1)

/-- The closure variable after `n` calls of `nextTransId` on a Controller just
constructed (`let transId = 0`). -/
def transIdAfter : Nat → Nat
  | 0 => 0
  | n + 1 => (nextTransId (transIdAfter n)).2

/-- The value the `n`-th call (from 1) of `nextTransId` returns on a Controller
just constructed; 0 stands for no call. -/
def nthTransId : Nat → Nat
  | 0 => 0
  | n + 1 => (nextTransId (transIdAfter n)).1

/-- The closure variables `transId` of the Controllers constructed, by
instance. -/
abbrev TransIds := Nat → Nat

/-- Every Controller just constructed: `let transId = 0` in each constructor
call. -/
def TransIds.fresh : TransIds := fun _ => 0

/-- A call of `nextTransId` on instance `i`: the value returned and the closure
variables afterwards.  The closure of instance `i` reads and writes its own
`transId` only. -/
def callNextTransId (w : TransIds) (i : Nat) : Nat × TransIds :=
  ((nextTransId (w i)).1, Function.update w i (nextTransId (w i)).2)

/-- Runs calls of `nextTransId` on the instances named by `calls`, in order,
and collects the values returned to instance `i`. -/
def returnedTo (i : Nat) : TransIds → List Nat → List Nat
  | _, [] => []
  | w, j :: calls =>
    if j = i then (callNextTransId w j).1 :: returnedTo i (callNextTransId w j).2 calls
    else returnedTo i (callNextTransId w j).2 calls

/-- The values `m` successive calls of `nextTransId` return on one Controller
whose closure variable holds `transId`. -/
def transIdsFrom : Nat → Nat → List Nat
  | _, 0 => []
  | transId, m + 1 => (nextTransId transId).1 :: transIdsFrom (nextTransId transId).2 m

/-! ## Requests, over the primitives of the run time -/

/-- The primitives of the JavaScript run time that `request` applies, for a type
`V` of the values a `status` property may hold: `String.prototype.toUpperCase`,
the test `v === 0`, and the string conversion performed by `'rsp error: ' + v`. -/
structure JsPrims (V : Type) where
  toUpperCase : String → String
  strictEqZero : V → Bool
  toStr : V → String

/-- Models `if (_.isString(subsys)) { subsys = subsys.toUpperCase() }` for the
upper-casing of the run time. -/
def upperCaseWith {V : Type} (js : JsPrims V) : StrOrNum → StrOrNum
  | StrOrNum.str s => StrOrNum.str (js.toUpperCase s)
  | StrOrNum.num n => StrOrNum.num n

/-- The callback `rspHdlr(err, rsp)` of `request` for response objects of any
type `R`, `status rsp` being the own `status` property of `rsp` (`none` when
there is none), and for the upper-cased subsystem `subsys`:
`if (err) reject(err) else if ((subsys !== 'ZDO' && subsys !== 5) && rsp && rsp.hasOwnProperty('status') && rsp.status !== 0) reject(new Error('rsp error: ' + rsp.status)) else resolve(rsp)`. -/
def rspHdlrWith {V R : Type} (js : JsPrims V) (status : R → Option V) (subsys : StrOrNum)
    (err : Option JsError) (rsp : Option R) : Settled (Option R) :=
  match err with
  | some e => Settled.rejected (Rejection.error e)
  | none =>
    match rsp with
    | some r =>
      match status r with
      | some v =>
        if !isZdo subsys && !js.strictEqZero v then
          Settled.rejected (Rejection.error ⟨"rsp error: " ++ js.toStr v⟩)
        else Settled.resolved rsp
      | none => Settled.resolved rsp
    | none => Settled.resolved rsp

/-- The request `request(subsys, cmdId, valObj)` hands over, and to whom, for
the upper-casing of the run time. -/
def mkRequestWith {V : Type} (js : JsPrims V) (subsys cmdId : StrOrNum) (valObj : ValObj) :
    Request :=
  { viaZdo := isZdo (upperCaseWith js subsys), subsys := upperCaseWith js subsys,
    cmdId := cmdId, valObj := valObj }

/-- A transport whose response objects are of type `R`: the arguments `(err, rsp)`
with which the collaborator calls back, by the number of requests issued before
and the request. -/
abbrev TransportOf (R : Type) := Nat → Request → Option JsError × Option R

/-- Models `request(subsys, cmdId, valObj)` over the primitives of the run time
and any type of response objects: the request handed over and how the returned
promise settles. -/
def requestWith {V R : Type} (js : JsPrims V) (status : R → Option V) (t : TransportOf R)
    (issued : List Request) (subsys cmdId : StrOrNum) (valObj : ValObj) :
    Settled (Option R) × List Request :=
  (rspHdlrWith js status (upperCaseWith js subsys)
      (t issued.length (mkRequestWith js subsys cmdId valObj)).1
      (t issued.length (mkRequestWith js subsys cmdId valObj)).2,
    issued ++ [mkRequestWith js subsys cmdId valObj])

/-- The management family, in the words of the specification: the subsystem is
the number 5, or a string that is `'ZDO'` after upper-casing. -/
def ManagementFamily {V : Type} (js : JsPrims V) (subsys : StrOrNum) : Prop :=
  subsys = StrOrNum.num 5 ∨ ∃ s, subsys = StrOrNum.str s ∧ js.toUpperCase s = "ZDO"

/-- The primitives on which `upperCase`, `rspHdlr` and `request` are built:
upper-casing of the ASCII letters, and `status` values that are strings or
integers printed in decimal.  They agree with the run time on the names the
Controller itself passes (`'SYS'`, `'SAPI'`, `'AF'`, `'ZDO'`) and on the status
bytes of the firmware. -/
def asciiPrims : JsPrims StrOrNum :=
  { toUpperCase := fun s => ⟨s.data.map Char.toUpper⟩,
    strictEqZero := fun v => v == StrOrNum.num 0,
    toStr := StrOrNum.toJsString }

/-- A transport of `Rsp` objects, as a transport of its callback arguments. -/
def Transport.args (t : Transport) : TransportOf Rsp :=
  fun i req => ((t i req).err, (t i req).rsp)

/-! # Theorems -/

/-! ## Join admission: invariants (C1, C2) -/

theorem dequeue_pipelines (s : JoinState) : (dequeue s).pipelines = s.pipelines := by
  unfold dequeue; split <;> rfl

theorem dequeue_joinQueue (s : JoinState) : (dequeue s).joinQueue = s.joinQueue.tail := by
  unfold dequeue; split <;> simp_all

theorem dequeue_onlineDevs (s : JoinState) : (dequeue s).onlineDevs = s.onlineDevs := by
  unfold dequeue; split <;> rfl

theorem listeners_cons (p : Pipeline) (ps : List Pipeline) :
    listeners (p :: ps) = (if p.listening then 1 else 0) + listeners ps := by
  cases h : p.listening
  · simp [listeners, List.filter_cons, h]
  · simp [listeners, List.filter_cons, h]
    omega

theorem listenerCount_cons (p : Pipeline) (ps : List Pipeline) (addr : String) :
    listenerCount (p :: ps) addr =
      (if p.listensTo addr then 1 else 0) + listenerCount ps addr := by
  cases h : p.listensTo addr
  · simp [listenerCount, List.filter_cons, h]
  · simp [listenerCount, List.filter_cons, h]
    omega

theorem listensTo_listening (p : Pipeline) (addr : String) (h : p.listensTo addr = true) :
    p.listening = true := by
  simp [Pipeline.listensTo] at h; exact h.1

theorem listenerCount_le (ps : List Pipeline) (addr : String) :
    listenerCount ps addr ≤ listeners ps := by
  induction ps with
  | nil => simp [listenerCount, listeners]
  | cons p ps ih =>
    rw [listeners_cons, listenerCount_cons]
    cases hp : p.listensTo addr
    · simp; omega
    · simp [listensTo_listening p addr hp]; omega

theorem fireListeners_none (addr : String) (ps : List Pipeline) (s : JoinState)
    (h : listenerCount ps addr = 0) : fireListeners addr ps s = (ps, s) := by
  induction ps generalizing s with
  | nil => rfl
  | cons p ps ih =>
    rw [listenerCount_cons] at h
    cases hp : p.listensTo addr
    · simp [hp] at h
      simp [fireListeners, hp, ih s h]
    · simp [hp] at h

theorem fireListeners_one (addr : String) (ps : List Pipeline) (s : JoinState)
    (hle : listeners ps ≤ 1) (h : listenerCount ps addr ≠ 0) :
    (fireListeners addr ps s).2 = dequeue s ∧ listeners (fireListeners addr ps s).1 = 0 := by
  induction ps generalizing s with
  | nil => simp [listenerCount] at h
  | cons p ps ih =>
    rw [listeners_cons] at hle
    rw [listenerCount_cons] at h
    cases hp : p.listensTo addr
    · simp [hp] at h
      have h1 := listenerCount_le ps addr
      have hpl : p.listening = false := by
        cases hl : p.listening
        · rfl
        · simp [hl] at hle; omega
      simp [hpl] at hle
      have := ih s hle h
      simp [fireListeners, hp, this.1, listeners_cons, hpl, this.2]
    · have hl := listensTo_listening p addr hp
      simp [hl] at hle
      have hc : listenerCount ps addr = 0 := by
        have := listenerCount_le ps addr; omega
      simp [fireListeners, hp, fireListeners_none addr ps _ hc, listeners_cons, hle]

theorem listeners_set (ps : List Pipeline) (i : Nat) (p q : Pipeline)
    (h : ps[i]? = some p) (hq : q.listening = p.listening) :
    listeners (ps.set i q) = listeners ps := by
  induction ps generalizing i with
  | nil => simp at h
  | cons a ps ih =>
    cases i with
    | zero =>
      simp at h
      simp [listeners_cons, hq, h]
    | succ i =>
      simp at h
      simp [listeners_cons, ih i h]

theorem JoinInv.congr {s t : JoinState} (h : JoinInv s) (h1 : t.spinLock = s.spinLock)
    (h2 : t.joinQueue = s.joinQueue) (h3 : t.immediates = s.immediates)
    (h4 : listeners t.pipelines = listeners s.pipelines) : JoinInv t := by
  refine ⟨?_, ?_, ?_⟩
  · simpa [queueAddrs, h2] using h.nodup
  · simpa [slots, h1, h3, h4] using h.slot
  · intro hl; rw [h2]; exact h.idle (h1 ▸ hl)

theorem dequeue_released {s : JoinState} (ps : List Pipeline)
    (hn : (queueAddrs s).Nodup) (hl : listeners ps = 0) (hi : s.immediates = [])
    (hs : s.spinLock = true) : JoinInv { dequeue s with pipelines := ps } := by
  unfold dequeue
  cases hq : s.joinQueue with
  | nil => exact ⟨by simp [queueAddrs, hq], by simp [slots, hl, hi], by simp [hq]⟩
  | cons next rest =>
    refine ⟨?_, by simp [slots, hl, hi, hs], by simp [hs]⟩
    simp only [queueAddrs, hq, List.map_cons, List.nodup_cons] at hn
    simpa [queueAddrs] using hn.2

theorem emitJoinEvent_cases (s : JoinState) (addr : String) (h : JoinInv s) :
    emitJoinEvent s addr = s ∨
    (s.spinLock = true ∧ s.immediates = [] ∧ listenerCount s.pipelines addr ≠ 0 ∧
      ∃ ps, listeners ps = 0 ∧ emitJoinEvent s addr = { dequeue s with pipelines := ps }) := by
  by_cases hc : listenerCount s.pipelines addr = 0
  · left; simp [emitJoinEvent, fireListeners_none addr _ s hc]
  · right
    have hle := listenerCount_le s.pipelines addr
    have hslot := h.slot
    unfold slots at hslot
    cases hs : s.spinLock
    · simp [hs] at hslot; omega
    · simp only [hs, if_true] at hslot
      have hone := fireListeners_one addr s.pipelines s (by omega) hc
      refine ⟨rfl, ?_, hc, _, hone.2, ?_⟩
      · apply List.eq_nil_of_length_eq_zero; omega
      · simp [emitJoinEvent, hone.1]

theorem emitJoinEvent_inv (s : JoinState) (addr : String) (h : JoinInv s) :
    JoinInv (emitJoinEvent s addr) := by
  rcases emitJoinEvent_cases s addr h with he | ⟨hs, hi, _, ps, hps, he⟩
  · rw [he]; exact h
  · rw [he]; exact dequeue_released ps h.nodup hps hi hs

theorem emitJoinEvent_queue (s : JoinState) (addr : String) (h : JoinInv s) :
    (emitJoinEvent s addr).joinQueue = s.joinQueue ∨
    (emitJoinEvent s addr).joinQueue = s.joinQueue.tail := by
  rcases emitJoinEvent_cases s addr h with he | ⟨_, _, _, ps, _, he⟩
  · left; rw [he]
  · right; rw [he]; exact dequeue_joinQueue s

theorem setPipeline_inv (s : JoinState) (i : Nat) (p q : Pipeline) (h : JoinInv s)
    (hp : s.pipelines[i]? = some p) (hq : q.listening = p.listening) :
    JoinInv (setPipeline s i q) :=
  h.congr rfl rfl rfl (listeners_set s.pipelines i p q hp hq)

theorem endDeviceAnnceHdlr_inv (s : JoinState) (data : AnnceData)
    (hn : (queueAddrs s).Nodup) (hslot : slots s = 0) (hs : s.spinLock = true) :
    JoinInv (endDeviceAnnceHdlr s data) := by
  unfold slots at hslot
  have hi : s.immediates = [] := List.eq_nil_of_length_eq_zero (by omega)
  unfold endDeviceAnnceHdlr
  split
  · have := dequeue_released s.pipelines hn (by omega) hi hs
    exact this.congr rfl rfl rfl (by rw [dequeue_pipelines])
  · refine ⟨by simpa [queueAddrs] using hn, ?_, by simp [hs]⟩
    have hl : listeners s.pipelines = 0 := by omega
    have ha : listeners (s.pipelines ++
        [{ data := data, joinTimeout := true, listening := true, stage := Stage.query1 }]) = 1 := by
      simp only [listeners, List.filter_append, List.length_append] at hl ⊢
      simp [hl]
    simp only [slots, ha, hi, hs]
    rfl

theorem endDeviceAnnceHdlr_queue (s : JoinState) (data : AnnceData) :
    (endDeviceAnnceHdlr s data).joinQueue = s.joinQueue ∨
    (endDeviceAnnceHdlr s data).joinQueue = s.joinQueue.tail := by
  unfold endDeviceAnnceHdlr
  split
  · right; exact dequeue_joinQueue s
  · left; rfl



theorem onEndDeviceAnnceInd_inv (s : JoinState) (data : AnnceData) (h : JoinInv s) :
    JoinInv (onEndDeviceAnnceInd s data) := by
  unfold onEndDeviceAnnceInd
  cases hs : s.spinLock
  · have hq := h.idle hs
    have hslot := h.slot
    simp only [hs] at hslot
    simp only [Bool.false_eq_true, if_false]
    exact endDeviceAnnceHdlr_inv _ data (by simp [queueAddrs, hq]) (by simpa [slots] using hslot) rfl
  · simp only [if_true]
    cases hin : inJoinQueue s.joinQueue data.ieeeaddr
    · simp only [Bool.false_eq_true, if_false]
      refine ⟨?_, by simpa [slots, hs] using h.slot, by simp [hs]⟩
      have hn := h.nodup
      simp only [queueAddrs, List.map_append, List.map_cons, List.map_nil] at hn ⊢
      rw [List.nodup_append]
      refine ⟨hn, by simp, ?_⟩
      simp only [inJoinQueue, List.any_eq_false, beq_iff_eq] at hin
      intro a ha hb
      simp only [List.mem_singleton] at hb
      simp only [List.mem_map] at ha
      obtain ⟨e, he, rfl⟩ := ha
      exact hin e he hb
    · simpa using h

theorem step_inv (s : JoinState) (e : JoinEvent) (h : JoinInv s) : JoinInv (s.step e) := by
  cases e with
  | announce data => exact onEndDeviceAnnceInd_inv s data h
  | devStatus addr online => exact h.congr rfl rfl rfl rfl
  | immediate =>
    simp only [JoinState.step]
    cases hi : s.immediates with
    | nil => simpa using h
    | cons next rest =>
      have hslot := h.slot
      simp only [slots, hi, List.length_cons] at hslot
      cases hs : s.spinLock
      · simp [hs] at hslot
      · simp only [hs, if_true] at hslot
        exact endDeviceAnnceHdlr_inv _ next.func (by simpa [queueAddrs] using h.nodup)
          (by simp only [slots]; omega) rfl
  | queryOk i =>
    simp only [JoinState.step]
    cases hp : s.pipelines[i]? with
    | none => simpa using h
    | some p =>
      simp only
      split
      · exact (setPipeline_inv s i p { p with joinTimeout := false, stage := Stage.incoming }
          h hp rfl).congr rfl rfl rfl rfl
      · exact h
  | queryFail i =>
    simp only [JoinState.step]
    cases hp : s.pipelines[i]? with
    | none => simpa using h
    | some p =>
      simp only
      split
      · exact setPipeline_inv s i p { p with stage := Stage.query2 } h hp rfl
      · split
        · exact emitJoinEvent_inv _ _
            ((setPipeline_inv s i p { p with stage := Stage.done } h hp rfl).congr rfl rfl rfl rfl)
        · exact h
  | incomingResolve i =>
    simp only [JoinState.step]
    cases hp : s.pipelines[i]? with
    | none => simpa using h
    | some p =>
      simp only
      split
      · exact emitJoinEvent_inv _ _ (setPipeline_inv s i p { p with stage := Stage.done } h hp rfl)
      · exact h
  | incomingReject i =>
    simp only [JoinState.step]
    cases hp : s.pipelines[i]? with
    | none => simpa using h
    | some p =>
      simp only
      split
      · exact emitJoinEvent_inv _ _
            ((setPipeline_inv s i p { p with stage := Stage.done } h hp rfl).congr rfl rfl rfl rfl)
      · exact h
  | timeout i =>
    simp only [JoinState.step]
    cases hp : s.pipelines[i]? with
    | none => simpa using h
    | some p =>
      simp only
      split
      · unfold onJoinTimeout
        have h1 : JoinInv (if listenerCount s.pipelines p.data.ieeeaddr ≠ 0 then
            { emitJoinEvent s p.data.ieeeaddr with
              emitted := (emitJoinEvent s p.data.ieeeaddr).emitted ++
                [Emitted.joining "timeout" p.data.ieeeaddr] }
          else s) := by
          split
          · exact (emitJoinEvent_inv s _ h).congr rfl rfl rfl rfl
          · exact h
        simp only
        split
        · next q hq => exact setPipeline_inv _ i q { q with joinTimeout := false } h1 hq rfl
        · exact h1
      · exact h

theorem fresh_inv : JoinInv JoinState.fresh :=
  ⟨by simp [queueAddrs, JoinState.fresh], by simp [slots, listeners, JoinState.fresh],
    by simp [JoinState.fresh]⟩

theorem run_inv (s : JoinState) (evs : List JoinEvent) (h : JoinInv s) : JoinInv (s.run evs) := by
  induction evs generalizing s with
  | nil => exact h
  | cons e evs ih => exact ih (s.step e) (step_inv s e h)

theorem inJoinQueue_iff (q : List PendingJoin) (addr : String) :
    inJoinQueue q addr = true ↔ addr ∈ q.map (fun e => e.ieeeAddr) := by
  simp only [inJoinQueue, List.any_eq_true, beq_iff_eq, List.mem_map]

theorem setPipeline_joinQueue (s : JoinState) (i : Nat) (p : Pipeline) :
    (setPipeline s i p).joinQueue = s.joinQueue := rfl

theorem step_queue (s : JoinState) (e : JoinEvent) (h : JoinInv s) :
    (s.step e).joinQueue = s.joinQueue ∨ (s.step e).joinQueue = s.joinQueue.tail ∨
    ∃ data, e = JoinEvent.announce data ∧ s.spinLock = true ∧
      (s.step e).joinQueue = s.joinQueue ++ [{ func := data, ieeeAddr := data.ieeeaddr }] := by
  cases e with
  | announce data =>
    simp only [JoinState.step, onEndDeviceAnnceInd]
    cases hs : s.spinLock
    · simp only [Bool.false_eq_true, if_false]
      rcases endDeviceAnnceHdlr_queue { s with spinLock := true } data with hq | hq
      · left; exact hq
      · right; left; exact hq
    · simp only [if_true]
      split
      · left; rfl
      · right; right; exact ⟨data, rfl, trivial, rfl⟩
  | devStatus addr online => left; rfl
  | immediate =>
    simp only [JoinState.step]
    split
    · left; rfl
    · next next rest hi =>
      rcases endDeviceAnnceHdlr_queue { s with immediates := rest } next.func with hq | hq
      · left; exact hq
      · right; left; exact hq
  | queryOk i =>
    simp only [JoinState.step]
    split
    · split
      · left; rfl
      · left; rfl
    · left; rfl
  | queryFail i =>
    simp only [JoinState.step]
    cases hp : s.pipelines[i]? with
    | none => left; rfl
    | some p =>
      simp only
      split
      · left; rfl
      · split
        · have hinv : JoinInv { setPipeline s i { p with stage := Stage.done } with
              emitted := (setPipeline s i { p with stage := Stage.done }).emitted ++
                [Emitted.error p.data.ieeeaddr, Emitted.joining "error" p.data.ieeeaddr] } :=
            (setPipeline_inv s i p { p with stage := Stage.done } h hp rfl).congr rfl rfl rfl rfl
          rcases emitJoinEvent_queue _ p.data.ieeeaddr hinv with hq | hq
          · left; exact hq
          · right; left; exact hq
        · left; rfl
  | incomingResolve i =>
    simp only [JoinState.step]
    cases hp : s.pipelines[i]? with
    | none => left; rfl
    | some p =>
      simp only
      split
      · rcases emitJoinEvent_queue _ p.data.ieeeaddr
          (setPipeline_inv s i p { p with stage := Stage.done } h hp rfl) with hq | hq
        · left; exact hq
        · right; left; exact hq
      · left; rfl
  | incomingReject i =>
    simp only [JoinState.step]
    cases hp : s.pipelines[i]? with
    | none => left; rfl
    | some p =>
      simp only
      split
      · have hinv : JoinInv { setPipeline s i { p with stage := Stage.done } with
            emitted := (setPipeline s i { p with stage := Stage.done }).emitted ++
              [Emitted.error p.data.ieeeaddr, Emitted.joining "error" p.data.ieeeaddr] } :=
          (setPipeline_inv s i p { p with stage := Stage.done } h hp rfl).congr rfl rfl rfl rfl
        rcases emitJoinEvent_queue _ p.data.ieeeaddr hinv with hq | hq
        · left; exact hq
        · right; left; exact hq
      · left; rfl
  | timeout i =>
    simp only [JoinState.step]
    cases hp : s.pipelines[i]? with
    | none => left; rfl
    | some p =>
      simp only
      split
      · unfold onJoinTimeout
        have h1 : (if listenerCount s.pipelines p.data.ieeeaddr ≠ 0 then
            { emitJoinEvent s p.data.ieeeaddr with
              emitted := (emitJoinEvent s p.data.ieeeaddr).emitted ++
                [Emitted.joining "timeout" p.data.ieeeaddr] }
          else s).joinQueue = s.joinQueue ∨ (if listenerCount s.pipelines p.data.ieeeaddr ≠ 0 then
            { emitJoinEvent s p.data.ieeeaddr with
              emitted := (emitJoinEvent s p.data.ieeeaddr).emitted ++
                [Emitted.joining "timeout" p.data.ieeeaddr] }
          else s).joinQueue = s.joinQueue.tail := by
          split
          · exact emitJoinEvent_queue s _ h
          · left; rfl
        simp only
        split
        · rcases h1 with hq | hq
          · left; exact hq
          · right; left; exact hq
        · rcases h1 with hq | hq
          · left; exact hq
          · right; left; exact hq
      · left; rfl

/-- C1: in every state reachable from a fresh Controller the backlog holds no
address twice; an announce that arrives while the lock is held leaves the
state unchanged when its address is already queued and is otherwise appended at
the tail; every event leaves the backlog as it is, removes exactly its head, or
(an announce under the lock) appends one entry at its tail. -/
theorem joinQueue_no_duplicate_addr (evs : List JoinEvent) :
    (queueAddrs (JoinState.fresh.run evs)).Nodup ∧
    (∀ data : AnnceData, (JoinState.fresh.run evs).spinLock = true →
      (JoinState.fresh.run evs).step (JoinEvent.announce data) =
        if data.ieeeaddr ∈ queueAddrs (JoinState.fresh.run evs) then JoinState.fresh.run evs
        else { JoinState.fresh.run evs with
          joinQueue := (JoinState.fresh.run evs).joinQueue ++
            [{ func := data, ieeeAddr := data.ieeeaddr }] }) ∧
    (∀ e : JoinEvent,
      ((JoinState.fresh.run evs).step e).joinQueue = (JoinState.fresh.run evs).joinQueue ∨
      ((JoinState.fresh.run evs).step e).joinQueue = (JoinState.fresh.run evs).joinQueue.tail ∨
      ∃ data, e = JoinEvent.announce data ∧ (JoinState.fresh.run evs).spinLock = true ∧
        ((JoinState.fresh.run evs).step e).joinQueue =
          (JoinState.fresh.run evs).joinQueue ++ [{ func := data, ieeeAddr := data.ieeeaddr }]) := by
  have hinv := run_inv JoinState.fresh evs fresh_inv
  refine ⟨hinv.nodup, ?_, fun e => step_queue _ e hinv⟩
  intro data hs
  simp only [JoinState.step, onEndDeviceAnnceInd, hs, if_true, queueAddrs]
  by_cases hin : data.ieeeaddr ∈ (JoinState.fresh.run evs).joinQueue.map (fun e => e.ieeeAddr)
  · rw [if_pos hin, if_pos ((inJoinQueue_iff _ _).2 hin)]
  · rw [if_neg hin, if_neg (fun hc => hin ((inJoinQueue_iff _ _).1 hc))]

/-- C1, witness: two announces for `0xB` while `0xA` is being processed leave
exactly one entry for `0xB` in the backlog. -/
theorem joinQueue_no_duplicate_addr_witness :
    queueAddrs (JoinState.fresh.run
      [JoinEvent.announce ⟨1, "0xA"⟩, JoinEvent.announce ⟨2, "0xB"⟩,
        JoinEvent.announce ⟨2, "0xB"⟩]) = ["0xB"] ∧
    (queueAddrs (JoinState.fresh.run
      [JoinEvent.announce ⟨1, "0xA"⟩, JoinEvent.announce ⟨2, "0xB"⟩,
        JoinEvent.announce ⟨2, "0xB"⟩])).Nodup :=
  ⟨by decide, (joinQueue_no_duplicate_addr _).1⟩

theorem fireListeners_length (addr : String) (ps : List Pipeline) (s : JoinState) :
    (fireListeners addr ps s).1.length = ps.length := by
  induction ps generalizing s with
  | nil => rfl
  | cons p ps ih =>
    unfold fireListeners
    split <;> simp [ih]

theorem emitJoinEvent_length (s : JoinState) (addr : String) :
    (emitJoinEvent s addr).pipelines.length = s.pipelines.length := by
  simp [emitJoinEvent, fireListeners_length]

theorem setPipeline_length (s : JoinState) (i : Nat) (p : Pipeline) :
    (setPipeline s i p).pipelines.length = s.pipelines.length := by
  simp [setPipeline]

theorem dequeue_length (s : JoinState) :
    (dequeue s).pipelines.length = s.pipelines.length := by
  rw [dequeue_pipelines]

theorem endDeviceAnnceHdlr_start (s : JoinState) (data : AnnceData) (hslot : slots s = 0)
    (hne : (endDeviceAnnceHdlr s data).pipelines.length ≠ s.pipelines.length) :
    listeners s.pipelines = 0 ∧
    (endDeviceAnnceHdlr s data).pipelines = s.pipelines ++
      [{ data := data, joinTimeout := true, listening := true, stage := Stage.query1 }] := by
  unfold slots at hslot
  unfold endDeviceAnnceHdlr at hne ⊢
  split
  · next h => rw [if_pos h, dequeue_pipelines] at hne; exact absurd rfl hne
  · exact ⟨by omega, rfl⟩

theorem step_start (s : JoinState) (e : JoinEvent) (h : JoinInv s)
    (hne : (s.step e).pipelines.length ≠ s.pipelines.length) :
    listeners s.pipelines = 0 ∧
    ∃ data, (s.step e).pipelines = s.pipelines ++
      [{ data := data, joinTimeout := true, listening := true, stage := Stage.query1 }] := by
  cases e with
  | announce data =>
    simp only [JoinState.step, onEndDeviceAnnceInd] at hne ⊢
    cases hs : s.spinLock
    · simp only [hs, Bool.false_eq_true, if_false] at hne ⊢
      have hslot := h.slot
      simp only [hs, Bool.false_eq_true, if_false] at hslot
      have := endDeviceAnnceHdlr_start { s with spinLock := true } data hslot hne
      exact ⟨this.1, data, this.2⟩
    · simp only [hs, if_true] at hne
      split at hne <;> simp at hne
  | devStatus addr online => exact absurd rfl hne
  | immediate =>
    simp only [JoinState.step] at hne ⊢
    cases hi : s.immediates with
    | nil => simp [hi] at hne
    | cons next rest =>
      simp only [hi] at hne ⊢
      have hslot := h.slot
      simp only [slots, hi, List.length_cons] at hslot
      have hz : slots { s with immediates := rest } = 0 := by
        simp only [slots]
        split at hslot <;> omega
      have := endDeviceAnnceHdlr_start { s with immediates := rest } next.func hz hne
      exact ⟨this.1, next.func, this.2⟩
  | queryOk i =>
    exfalso; apply hne
    simp only [JoinState.step]
    split
    · split
      · simp [onDescription, setPipeline]
      · rfl
    · rfl
  | queryFail i =>
    exfalso; apply hne
    simp only [JoinState.step]
    split
    · split
      · simp [setPipeline]
      · split
        · simp [onPipelineFail, emitJoinEvent_length, setPipeline]
        · rfl
    · rfl
  | incomingResolve i =>
    exfalso; apply hne
    simp only [JoinState.step]
    split
    · split
      · simp [onIncomingDone, emitJoinEvent_length, setPipeline]
      · rfl
    · rfl
  | incomingReject i =>
    exfalso; apply hne
    simp only [JoinState.step]
    split
    · split
      · simp [onPipelineFail, emitJoinEvent_length, setPipeline]
      · rfl
    · rfl
  | timeout i =>
    exfalso; apply hne
    simp only [JoinState.step]
    split
    · split
      · unfold onJoinTimeout
        simp only
        split <;> split <;> simp [setPipeline, emitJoinEvent_length]
      · rfl
    · rfl

/-- C2, as the code has it: the number of holders of the admission slot
(registered join-event listeners plus dequeued starts not yet run) is 1 while
the lock is held and 0 otherwise, and an event starts a pipeline only in a
state with no registered join-event listener, the new pipeline being appended
with its timer armed and its listener registered. -/
theorem admission_slot_exclusive (evs : List JoinEvent) :
    slots (JoinState.fresh.run evs) = (if (JoinState.fresh.run evs).spinLock then 1 else 0) ∧
    (∀ e : JoinEvent,
      ((JoinState.fresh.run evs).step e).pipelines.length ≠
          (JoinState.fresh.run evs).pipelines.length →
        listeners (JoinState.fresh.run evs).pipelines = 0 ∧
        listeners ((JoinState.fresh.run evs).step e).pipelines = 1 ∧
        ∃ data, ((JoinState.fresh.run evs).step e).pipelines =
          (JoinState.fresh.run evs).pipelines ++
            [{ data := data, joinTimeout := true, listening := true, stage := Stage.query1 }]) := by
  have hinv := run_inv JoinState.fresh evs fresh_inv
  refine ⟨hinv.slot, fun e hne => ?_⟩
  obtain ⟨h0, data, hd⟩ := step_start _ e hinv hne
  refine ⟨h0, ?_, data, hd⟩
  rw [hd]
  simp only [listeners, List.filter_append, List.length_append] at h0 ⊢
  simp [h0]

/-- C2, witness: with `0xA` timed out and `0xB` dequeued, running the scheduled
start appends the pipeline of `0xB`; no listener was registered before it, and
its own is the only one after. -/
theorem admission_slot_exclusive_witness :
    listeners (JoinState.fresh.run
      [JoinEvent.announce ⟨1, "0xA"⟩, JoinEvent.announce ⟨2, "0xB"⟩,
        JoinEvent.timeout 0]).pipelines = 0 ∧
    listeners ((JoinState.fresh.run
      [JoinEvent.announce ⟨1, "0xA"⟩, JoinEvent.announce ⟨2, "0xB"⟩,
        JoinEvent.timeout 0]).step JoinEvent.immediate).pipelines = 1 :=
  have h := (admission_slot_exclusive
    [JoinEvent.announce ⟨1, "0xA"⟩, JoinEvent.announce ⟨2, "0xB"⟩, JoinEvent.timeout 0]).2
    JoinEvent.immediate (by decide)
  ⟨h.1, h.2.1⟩

/-- C2, counterexample: `0xA` is announced and its description query hangs,
`0xB` is announced and queued, the 30 s timer of `0xA` fires and the pipeline of
`0xB` starts.  Two pipelines are then in flight, and when the query of `0xA`
succeeds afterwards `'ZDO:devIncoming'` is emitted for `0xA` although the
pipeline of `0xB` has begun. -/
theorem admission_pipelines_overlap :
    inFlight (JoinState.fresh.run
      [JoinEvent.announce ⟨1, "0xA"⟩, JoinEvent.announce ⟨2, "0xB"⟩, JoinEvent.timeout 0,
        JoinEvent.immediate]).pipelines = 2 ∧
    (JoinState.fresh.run
      [JoinEvent.announce ⟨1, "0xA"⟩, JoinEvent.announce ⟨2, "0xB"⟩, JoinEvent.timeout 0,
        JoinEvent.immediate, JoinEvent.queryOk 0]).emitted =
      [Emitted.joining "associating" "0xA", Emitted.joining "timeout" "0xA",
        Emitted.joining "associating" "0xB", Emitted.devIncoming ⟨1, "0xA"⟩] := by
  decide

/-! ## Requests (C3) -/

theorem upperCase_eq_with (subsys : StrOrNum) :
    upperCase subsys = upperCaseWith asciiPrims subsys := by
  cases subsys <;> rfl

theorem rspHdlr_eq_with (subsys : StrOrNum) (o : Outcome) :
    rspHdlr subsys o = rspHdlrWith asciiPrims (fun r : Rsp => r.status) subsys o.err o.rsp := by
  unfold rspHdlr rspHdlrWith
  cases o.err with
  | some e => rfl
  | none =>
    cases o.rsp with
    | none => rfl
    | some r =>
      simp only
      cases r.status with
      | none => rfl
      | some v => simp [asciiPrims, bne]

theorem request_eq_with (t : Transport) (issued : List Request) (subsys cmdId : StrOrNum)
    (valObj : ValObj) :
    request t issued subsys cmdId valObj =
      requestWith asciiPrims (fun r : Rsp => r.status) t.args issued subsys cmdId valObj := by
  simp only [request, requestWith, rspHdlr_eq_with, mkRequest, mkRequestWith,
    upperCase_eq_with, Transport.args]

theorem isZdo_iff {V : Type} (js : JsPrims V) (subsys : StrOrNum) :
    isZdo (upperCaseWith js subsys) = true ↔ ManagementFamily js subsys := by
  cases subsys with
  | str s =>
    simp [isZdo, upperCaseWith, ManagementFamily]
  | num n =>
    simp [isZdo, upperCaseWith, ManagementFamily]

/-- C3: for every subsystem (a string or a number), command, argument object
and transport outcome `(err, rsp)`, whatever values `status` may hold,
`request` hands exactly one request over, to the ZDO codec exactly when the
subsystem is of the management family (`'ZDO'` after upper-casing, or 5), and
settles as follows: with `err` present it rejects with `err`; otherwise, off
the management family, a `status` other than 0 rejects with an error whose
message is `'rsp error: '` followed by that status; otherwise (management
family, no response object, no `status`, or `status` 0) it resolves with `rsp`
as received. -/
theorem request_settles {V R : Type} (js : JsPrims V) (status : R → Option V)
    (t : TransportOf R) (issued : List Request) (subsys cmdId : StrOrNum) (valObj : ValObj) :
    (requestWith js status t issued subsys cmdId valObj).2 =
      issued ++ [mkRequestWith js subsys cmdId valObj] ∧
    ((mkRequestWith js subsys cmdId valObj).viaZdo = true ↔ ManagementFamily js subsys) ∧
    (∀ err, (t issued.length (mkRequestWith js subsys cmdId valObj)).1 = some err →
      (requestWith js status t issued subsys cmdId valObj).1 =
        Settled.rejected (Rejection.error err)) ∧
    (∀ rsp v, (t issued.length (mkRequestWith js subsys cmdId valObj)).1 = none →
      ¬ManagementFamily js subsys →
      (t issued.length (mkRequestWith js subsys cmdId valObj)).2 = some rsp →
      status rsp = some v → js.strictEqZero v = false →
      (requestWith js status t issued subsys cmdId valObj).1 =
        Settled.rejected (Rejection.error ⟨"rsp error: " ++ js.toStr v⟩)) ∧
    ((t issued.length (mkRequestWith js subsys cmdId valObj)).1 = none →
      ManagementFamily js subsys →
      (requestWith js status t issued subsys cmdId valObj).1 =
        Settled.resolved (t issued.length (mkRequestWith js subsys cmdId valObj)).2) ∧
    (∀ rsp, (t issued.length (mkRequestWith js subsys cmdId valObj)).1 = none →
      (t issued.length (mkRequestWith js subsys cmdId valObj)).2 = some rsp →
      (status rsp = none ∨ ∃ v, status rsp = some v ∧ js.strictEqZero v = true) →
      (requestWith js status t issued subsys cmdId valObj).1 = Settled.resolved (some rsp)) ∧
    ((t issued.length (mkRequestWith js subsys cmdId valObj)).1 = none →
      (t issued.length (mkRequestWith js subsys cmdId valObj)).2 = none →
      (requestWith js status t issued subsys cmdId valObj).1 = Settled.resolved none) := by
  refine ⟨rfl, isZdo_iff js subsys, ?_, ?_, ?_, ?_, ?_⟩
  · intro err he
    simp [requestWith, rspHdlrWith, he]
  · intro rsp v he hm hr hs hz
    have hz' : isZdo (upperCaseWith js subsys) = false := by
      rw [Bool.eq_false_iff]
      exact fun h => hm ((isZdo_iff js subsys).1 h)
    simp [requestWith, rspHdlrWith, he, hr, hs, hz, hz']
  · intro he hm
    have hz' : isZdo (upperCaseWith js subsys) = true := (isZdo_iff js subsys).2 hm
    simp only [requestWith, rspHdlrWith, he, hz']
    cases hr : (t issued.length (mkRequestWith js subsys cmdId valObj)).2 with
    | none => rfl
    | some rsp => cases hs : status rsp <;> simp [hs]
  · intro rsp he hr hs
    rcases hs with hs | ⟨v, hs, hz⟩ <;> simp [requestWith, rspHdlrWith, he, hr, hs, *]
  · intro he hr
    simp [requestWith, rspHdlrWith, he, hr]

/-- C3, witness: on the Controller's own `request`, an AF response with status
184 is rejected with `'rsp error: 184'`, while a response with status 1 is
resolved as received when the subsystem is `'zdo'` (the management family in
lower case) and when it is the number 5. -/
theorem request_settles_witness :
    (request (fun _ _ => ⟨none, some ⟨some (StrOrNum.num 184), none⟩⟩) []
      (StrOrNum.str "af") (StrOrNum.str "register") (ValObj.afDelete 1)).1 =
      Settled.rejected (Rejection.error ⟨"rsp error: 184"⟩) ∧
    (request (fun _ _ => ⟨none, some ⟨some (StrOrNum.num 1), none⟩⟩) []
      (StrOrNum.str "zdo") (StrOrNum.str "nodeDescReq") (ValObj.other [])).1 =
      Settled.resolved (some ⟨some (StrOrNum.num 1), none⟩) ∧
    (request (fun _ _ => ⟨none, some ⟨some (StrOrNum.num 1), none⟩⟩) []
      (StrOrNum.num 5) (StrOrNum.str "nodeDescReq") (ValObj.other [])).1 =
      Settled.resolved (some ⟨some (StrOrNum.num 1), none⟩) := by
  refine ⟨?_, ?_, ?_⟩
  · rw [request_eq_with]
    have h := request_settles asciiPrims (fun r : Rsp => r.status)
      (Transport.args (fun _ _ => ⟨none, some ⟨some (StrOrNum.num 184), none⟩⟩)) []
      (StrOrNum.str "af") (StrOrNum.str "register") (ValObj.afDelete 1)
    exact h.2.2.2.1 ⟨some (StrOrNum.num 184), none⟩ (StrOrNum.num 184) rfl
      (fun hm => absurd (h.2.1.2 hm) (by decide)) rfl rfl (by decide)
  · rw [request_eq_with]
    exact (request_settles asciiPrims (fun r : Rsp => r.status)
      (Transport.args (fun _ _ => ⟨none, some ⟨some (StrOrNum.num 1), none⟩⟩)) []
      (StrOrNum.str "zdo") (StrOrNum.str "nodeDescReq") (ValObj.other [])).2.2.2.2.1 rfl
      (Or.inr ⟨"zdo", rfl, by decide⟩)
  · rw [request_eq_with]
    exact (request_settles asciiPrims (fun r : Rsp => r.status)
      (Transport.args (fun _ _ => ⟨none, some ⟨some (StrOrNum.num 1), none⟩⟩)) []
      (StrOrNum.num 5) (StrOrNum.str "nodeDescReq") (ValObj.other [])).2.2.2.2.1 rfl
      (Or.inl rfl)

/-! ## Reset and the non-volatile parameters (C4, C5, C6) -/

theorem ctrl_request_eq (t : Transport) (c : Ctrl) (subsys cmdId : StrOrNum) (valObj : ValObj) :
    c.request t subsys cmdId valObj =
      (settle t c.issued.length (mkRequest subsys cmdId valObj),
        { c with issued := c.issued ++ [mkRequest subsys cmdId valObj] }) := rfl

theorem hardSteps_sequence (nv : NvParams) :
    hardSteps.map (stepRequest nv) = hardResetSequence nv := by
  simp only [hardSteps, hardResetSequence, List.map_cons, List.map_nil, stepRequest, mkRequest,
    znpRequest]
  have h1 : upperCase (StrOrNum.str "SYS") = StrOrNum.str "SYS" := by decide
  have h2 : upperCase (StrOrNum.str "SAPI") = StrOrNum.str "SAPI" := by decide
  have h3 : isZdo (StrOrNum.str "SYS") = false := by decide
  have h4 : isZdo (StrOrNum.str "SAPI") = false := by decide
  simp only [h1, h2, h3, h4]

theorem runSteps_resolved (t : Transport) (steps : List Step) (c : Ctrl)
    (h : ResolvesBefore t c.issued.length (steps.map (stepRequest c.nvParams)) steps.length) :
    runSteps t c steps =
      (Settled.resolved (),
        { c with issued := c.issued ++ steps.map (stepRequest c.nvParams) }) := by
  induction steps generalizing c with
  | nil => simp [runSteps]
  | cons fn rest ih =>
    obtain ⟨rsp, hr⟩ := h 0 (stepRequest c.nvParams fn) (by simp) (by simp)
    simp only [runSteps, ctrl_request_eq]
    simp only [stepRequest, Nat.add_zero] at hr
    rw [hr]
    simp only
    rw [ih]
    · simp [stepRequest]
    · intro j req hj hreq
      have := h (j + 1) req (by simpa using hj) (by simpa using hreq)
      simpa [Nat.add_assoc, Nat.add_comm 1 j] using this

theorem runSteps_rejected (t : Transport) (steps : List Step) (c : Ctrl) (k : Nat)
    (req : Request) (r : Rejection)
    (h : ResolvesBefore t c.issued.length (steps.map (stepRequest c.nvParams)) k)
    (hk : (steps.map (stepRequest c.nvParams))[k]? = some req)
    (hr : settle t (c.issued.length + k) req = Settled.rejected r) :
    runSteps t c steps =
      (Settled.rejected r,
        { c with issued := c.issued ++ (steps.map (stepRequest c.nvParams)).take (k + 1) }) := by
  induction steps generalizing c k with
  | nil => simp at hk
  | cons fn rest ih =>
    cases k with
    | zero =>
      simp only [List.map_cons, List.getElem?_cons_zero, Option.some.injEq] at hk
      subst hk
      simp only [stepRequest, Nat.add_zero] at hr
      simp only [runSteps, ctrl_request_eq, hr]
      simp [stepRequest]
    | succ k =>
      obtain ⟨rsp, hr0⟩ := h 0 (stepRequest c.nvParams fn) (by simp) (by simp)
      simp only [stepRequest, Nat.add_zero] at hr0
      simp only [runSteps, ctrl_request_eq, hr0]
      rw [ih _ k]
      · simp [stepRequest]
      · intro j rq hj hrq
        have := h (j + 1) rq (by simpa using hj) (by simpa using hrq)
        simpa [Nat.add_assoc, Nat.add_comm 1 j] using this
      · simpa using hk
      · simpa [Nat.add_assoc, Nat.add_comm 1 k] using hr

/-- The state in which the hard reset runs its steps. -/
theorem resetBody_hard (t : Transport) (c : Ctrl) (mode : StrOrNum)
    (hm : mode = StrOrNum.str "hard" ∨ mode = StrOrNum.num 0) :
    resetBody t c mode (jsFirst c.nvParams.startupOption.value) =
      runSteps t { c with resetting := true, nvParams := hardNv c } hardSteps := by
  have hns : ¬(mode = StrOrNum.str "soft" ∨ mode = StrOrNum.num 1) := by
    rcases hm with h | h <;> subst h <;> decide
  unfold resetBody
  rw [if_neg hns, if_pos hm]
  simp only [hardNv]
  by_cases hc : c.nvChanged = true ∧ jsFirst c.nvParams.startupOption.value ≠ some 2
  · rw [if_pos hc, if_pos hc]; rfl
  · rw [if_neg hc, if_neg hc]

theorem reset_hard_rejected (t : Transport) (c : Ctrl) (mode : StrOrNum)
    (hm : mode = StrOrNum.str "hard" ∨ mode = StrOrNum.num 0) (k : Nat) (req : Request)
    (r : Rejection)
    (hres : ResolvesBefore t c.issued.length (hardResetSequence (hardNv c)) k)
    (hk : (hardResetSequence (hardNv c))[k]? = some req)
    (hr : settle t (c.issued.length + k) req = Settled.rejected r) :
    (reset t c mode).1 = ResetResult.rejected r ∧
    (reset t c mode).2.issued = c.issued ++ (hardResetSequence (hardNv c)).take (k + 1) := by
  have hb := resetBody_hard t { c with resetCalls := c.resetCalls ++ [⟨mode, c.nvChanged⟩] }
    mode hm
  have hrun := runSteps_rejected t hardSteps
    { c with resetCalls := c.resetCalls ++ [⟨mode, c.nvChanged⟩], resetting := true,
             nvParams := hardNv c } k req r
    (by simpa [hardSteps_sequence] using hres) (by simpa [hardSteps_sequence] using hk) hr
  simp only [reset]
  rw [hb]
  have hnv : hardNv { c with resetCalls := c.resetCalls ++ [⟨mode, c.nvChanged⟩] } =
      hardNv c := rfl
  rw [hnv, hrun]
  simp [hardSteps_sequence]

theorem reset_hard_resolved (t : Transport) (c : Ctrl) (mode : StrOrNum)
    (hm : mode = StrOrNum.str "hard" ∨ mode = StrOrNum.num 0)
    (hres : ResolvesBefore t c.issued.length (hardResetSequence (hardNv c)) 11) :
    (reset t c mode).2.issued = c.issued ++ hardResetSequence (hardNv c) ∧
    (reset t c mode).1 =
      if c.nvChanged then ResetResult.resolved else ResetResult.awaitingResetInd := by
  have hb := resetBody_hard t { c with resetCalls := c.resetCalls ++ [⟨mode, c.nvChanged⟩] }
    mode hm
  have hrun := runSteps_resolved t hardSteps
    { c with resetCalls := c.resetCalls ++ [⟨mode, c.nvChanged⟩], resetting := true,
             nvParams := hardNv c }
    (by simpa [hardSteps_sequence, hardSteps] using hres)
  simp only [reset]
  rw [hb]
  have hnv : hardNv { c with resetCalls := c.resetCalls ++ [⟨mode, c.nvChanged⟩] } =
      hardNv c := rfl
  rw [hnv, hrun]
  cases hc : c.nvChanged <;> simp [hardSteps_sequence, hc, setStartupOption]

/-- C4: a hard reset issues the requests of the fixed sequence in order, one
after the previous one has completed.  If the request at position `k` is the
first to fail, exactly the first `k + 1` requests of the sequence have been
issued and `reset` rejects with the error of that request; if none fails, all
eleven have been issued, in order. -/
theorem hard_reset_order (t : Transport) (c : Ctrl) (mode : StrOrNum)
    (hm : mode = StrOrNum.str "hard" ∨ mode = StrOrNum.num 0) :
    (∀ k req r, ResolvesBefore t c.issued.length (hardResetSequence (hardNv c)) k →
      (hardResetSequence (hardNv c))[k]? = some req →
      settle t (c.issued.length + k) req = Settled.rejected r →
      (reset t c mode).1 = ResetResult.rejected r ∧
      (reset t c mode).2.issued = c.issued ++ (hardResetSequence (hardNv c)).take (k + 1)) ∧
    (ResolvesBefore t c.issued.length (hardResetSequence (hardNv c)) 11 →
      (reset t c mode).2.issued = c.issued ++ hardResetSequence (hardNv c) ∧
      (reset t c mode).1 =
        if c.nvChanged then ResetResult.resolved else ResetResult.awaitingResetInd) :=
  ⟨fun k req r hres hk hr => reset_hard_rejected t c mode hm k req r hres hk hr,
    fun hres => reset_hard_resolved t c mode hm hres⟩

/-- C4, witness: on a transport whose fourth request fails, a hard reset issues
the first four requests of the sequence and rejects with that error. -/
theorem hard_reset_order_witness :
    (reset (failingAt 3) (sampleCtrl false) (StrOrNum.str "hard")).1 =
      ResetResult.rejected (Rejection.error ⟨"request timeout"⟩) ∧
    (reset (failingAt 3) (sampleCtrl false) (StrOrNum.str "hard")).2.issued =
      [] ++ (hardResetSequence (hardNv (sampleCtrl false))).take 4 :=
  (hard_reset_order (failingAt 3) (sampleCtrl false) (StrOrNum.str "hard") (Or.inl rfl)).1 3
    (znpRequest "SAPI" "writeConfiguration" (ValObj.nv sampleNv.panId))
    (Rejection.error ⟨"request timeout"⟩)
    (by
      intro j req hj hreq
      have h3 : j = 0 ∨ j = 1 ∨ j = 2 := by omega
      rcases h3 with h | h | h <;> subst h <;>
        simp only [hardResetSequence, List.getElem?_cons_zero, List.getElem?_cons_succ,
          Option.some.injEq] at hreq <;> subst hreq <;>
        exact ⟨some ⟨some (StrOrNum.num 0), none⟩, by decide⟩)
    (by decide) (by decide)

theorem readRequest_eq (e : NvEntry) :
    mkRequest (StrOrNum.str "SAPI") (StrOrNum.str "readConfiguration") (ValObj.nv e) =
      readRequest e := by
  have h2 : upperCase (StrOrNum.str "SAPI") = StrOrNum.str "SAPI" := by decide
  have h4 : isZdo (StrOrNum.str "SAPI") = false := by decide
  simp only [mkRequest, readRequest, znpRequest, h2, h4]

theorem readStep_eq (t : Transport) (c : Ctrl) (entry : NvParams → NvEntry) :
    readStep t c entry =
      (readVerdict t c.issued.length (entry c.nvParams),
        { c with issued := c.issued ++ [readRequest (entry c.nvParams)] }) := by
  simp only [readStep, ctrl_request_eq, readRequest_eq, readVerdict]
  cases settle t c.issued.length (readRequest (entry c.nvParams)) with
  | rejected r => rfl
  | resolved rsp =>
    simp only
    cases rsp.bind (fun r => r.value) with
    | none => rfl
    | some bytes =>
      simp only
      split <;> rfl

theorem runReads_resolved (t : Transport) (es : List (NvParams → NvEntry)) (c : Ctrl)
    (h : ∀ j f, es[j]? = some f →
      readVerdict t (c.issued.length + j) (f c.nvParams) = Settled.resolved ()) :
    runReads t c es =
      (Settled.resolved (),
        { c with issued := c.issued ++ es.map (fun f => readRequest (f c.nvParams)) }) := by
  induction es generalizing c with
  | nil => simp [runReads]
  | cons f rest ih =>
    have h0 := h 0 f (by simp)
    simp only [Nat.add_zero] at h0
    simp only [runReads, readStep_eq, h0]
    rw [ih]
    · simp
    · intro j g hg
      have := h (j + 1) g (by simpa using hg)
      simpa [Nat.add_assoc, Nat.add_comm 1 j] using this

theorem runReads_rejected (t : Transport) (es : List (NvParams → NvEntry)) (c : Ctrl) (k : Nat)
    (f : NvParams → NvEntry) (r : Rejection)
    (h : ∀ j g, j < k → es[j]? = some g →
      readVerdict t (c.issued.length + j) (g c.nvParams) = Settled.resolved ())
    (hk : es[k]? = some f)
    (hr : readVerdict t (c.issued.length + k) (f c.nvParams) = Settled.rejected r) :
    runReads t c es =
      (Settled.rejected r,
        { c with issued := c.issued ++
            (es.map (fun f => readRequest (f c.nvParams))).take (k + 1) }) := by
  induction es generalizing c k with
  | nil => simp at hk
  | cons g rest ih =>
    cases k with
    | zero =>
      simp only [List.getElem?_cons_zero, Option.some.injEq] at hk
      subst hk
      simp only [Nat.add_zero] at hr
      simp [runReads, readStep_eq, hr]
    | succ k =>
      have h0 := h 0 g (by simp) (by simp)
      simp only [Nat.add_zero] at h0
      simp only [runReads, readStep_eq, h0]
      rw [ih _ k]
      · simp
      · intro j g' hj hg'
        have := h (j + 1) g' (by simpa using hj) (by simpa using hg')
        simpa [Nat.add_assoc, Nat.add_comm 1 j] using this
      · simpa using hk
      · simpa [Nat.add_assoc, Nat.add_comm 1 k] using hr

theorem checkEntries_sequence (nv : NvParams) :
    checkEntries.map (fun f => f nv) = readSequence nv := rfl

theorem readVerdict_of_matches (t : Transport) (n : Nat) (nv : NvParams) (k : Nat)
    (h : MatchesBefore t n (readSequence nv) k) :
    ∀ j g, j < k → checkEntries[j]? = some g →
      readVerdict t (n + j) (g nv) = Settled.resolved () := by
  intro j g hj hg
  have hm : (readSequence nv)[j]? = some (g nv) := by
    rw [← checkEntries_sequence, List.getElem?_map, hg]; rfl
  obtain ⟨rsp, hs, hv⟩ := h j (g nv) hj hm
  simp [readVerdict, hs, hv]

theorem settle_rejected_error (t : Transport) (i : Nat) (req : Request) (r : Rejection)
    (h : settle t i req = Settled.rejected r) : ∃ e, r = Rejection.error e := by
  unfold settle rspHdlr at h
  split at h
  · simp only [Settled.rejected.injEq] at h; exact ⟨_, h.symm⟩
  · split at h
    · split at h
      · split at h
        · simp only [Settled.rejected.injEq] at h; exact ⟨_, h.symm⟩
        · simp at h
      · simp at h
    · simp at h

theorem runSteps_frame (t : Transport) (steps : List Step) (c : Ctrl) :
    (runSteps t c steps).2 = { c with issued := (runSteps t c steps).2.issued } := by
  induction steps generalizing c with
  | nil => rfl
  | cons fn rest ih =>
    simp only [runSteps, ctrl_request_eq]
    split
    · next rsp c1 heq =>
      simp only [Prod.mk.injEq] at heq
      rw [ih c1, ← heq.2]
    · next r c1 heq =>
      simp only [Prod.mk.injEq] at heq
      rw [← heq.2]

theorem reset_resetCalls (t : Transport) (c : Ctrl) (mode : StrOrNum) :
    (reset t c mode).2.resetCalls = c.resetCalls ++ [⟨mode, c.nvChanged⟩] := by
  have hbody : ∀ c0 : Ctrl, (resetBody t c0 mode (jsFirst c.nvParams.startupOption.value)).2.resetCalls
      = c0.resetCalls := by
    intro c0
    unfold resetBody
    split
    · simp only [ctrl_request_eq]
      split <;> next heq => simp only [Prod.mk.injEq] at heq; rw [← heq.2]
    · split
      · simp only
        rw [runSteps_frame]
        split <;> rfl
      · rfl
  simp only [reset]
  split
  · next u c1 heq =>
    have := hbody { c with resetCalls := c.resetCalls ++ [⟨mode, c.nvChanged⟩] }
    rw [heq] at this
    simp only at this
    split <;> simpa [setStartupOption] using this
  · next r c1 heq =>
    have := hbody { c with resetCalls := c.resetCalls ++ [⟨mode, c.nvChanged⟩] }
    rw [heq] at this
    simpa using this

theorem reset_resolved_clears (t : Transport) (c : Ctrl) (mode : StrOrNum)
    (h : (reset t c mode).1 = ResetResult.resolved) : (reset t c mode).2.nvChanged = false := by
  simp only [reset] at h ⊢
  split at h
  · split at h
    · next hc => simp [hc]
    · simp at h
  · simp at h

theorem runSteps_issued (t : Transport) (steps : List Step) (c : Ctrl) :
    ∃ m, (runSteps t c steps).2.issued =
      c.issued ++ (steps.map (stepRequest c.nvParams)).take m := by
  induction steps generalizing c with
  | nil => exact ⟨0, by simp [runSteps]⟩
  | cons fn rest ih =>
    simp only [runSteps, ctrl_request_eq]
    split
    · next rsp c1 heq =>
      simp only [Prod.mk.injEq] at heq
      obtain ⟨m, hm⟩ := ih c1
      refine ⟨m + 1, ?_⟩
      rw [hm, ← heq.2]
      simp [stepRequest]
    · next r c1 heq =>
      simp only [Prod.mk.injEq] at heq
      refine ⟨1, ?_⟩
      rw [← heq.2]
      simp [stepRequest]

theorem reset_hard_issued (t : Transport) (c : Ctrl) :
    ∃ m, (reset t c (StrOrNum.str "hard")).2.issued =
      c.issued ++ (hardResetSequence (hardNv c)).take m := by
  have hb := resetBody_hard t
    { c with resetCalls := c.resetCalls ++ [⟨StrOrNum.str "hard", c.nvChanged⟩] }
    (StrOrNum.str "hard") (Or.inl rfl)
  have hnv : hardNv { c with resetCalls := c.resetCalls ++
      [⟨StrOrNum.str "hard", c.nvChanged⟩] } = hardNv c := rfl
  obtain ⟨m, hm⟩ := runSteps_issued t hardSteps
    { c with resetCalls := c.resetCalls ++ [⟨StrOrNum.str "hard", c.nvChanged⟩],
             resetting := true, nvParams := hardNv c }
  refine ⟨m, ?_⟩
  simp only [reset]
  rw [hb, hnv]
  simp only [hardSteps_sequence] at hm
  split
  · next u c1 heq =>
    rw [heq] at hm
    simp only at hm
    split <;> simpa [setStartupOption] using hm
  · next r c1 heq =>
    rw [heq] at hm
    simpa using hm

/-- C5: `checkNvParams` reads pan id, channel list, pre-configured key and
pre-configured-key enable in that order.  If all four reads return the locally
held bytes it resolves, having issued the four reads only and changed nothing
else.  If the first read that does not is a value mismatch or a failure with
`'rsp error: 2'`, what follows is exactly one `reset('hard')` entered with
`_nvChanged` set: no further read is issued, the requests that follow are a
prefix of the hard reset sequence, and when the reset sequence completes the
result is resolved with `_nvChanged` cleared.  If that read fails with another
error, or its response carries no `value` and `bufToArray` throws, the error is
the result, and neither `reset` nor `_nvChanged` is touched. -/
theorem checkNvParams_decides (t : Transport) (c : Ctrl) :
    (MatchesBefore t c.issued.length (readSequence c.nvParams) 4 →
      checkNvParams t c = (ResetResult.resolved,
        { c with issued := c.issued ++ (readSequence c.nvParams).map readRequest })) ∧
    (∀ k e, MatchesBefore t c.issued.length (readSequence c.nvParams) k →
      (readSequence c.nvParams)[k]? = some e →
      ((∃ rsp bytes,
          settle t (c.issued.length + k) (readRequest e) = Settled.resolved (some rsp) ∧
          rsp.value = some bytes ∧ bytes ≠ e.value) ∨
        settle t (c.issued.length + k) (readRequest e) =
          Settled.rejected (Rejection.error ⟨"rsp error: 2"⟩)) →
      checkNvParams t c =
        reset t { c with
          issued := c.issued ++ ((readSequence c.nvParams).map readRequest).take (k + 1),
          nvChanged := true } (StrOrNum.str "hard") ∧
      (checkNvParams t c).2.resetCalls = c.resetCalls ++ [⟨StrOrNum.str "hard", true⟩] ∧
      (∃ m, (checkNvParams t c).2.issued =
        c.issued ++ ((readSequence c.nvParams).map readRequest).take (k + 1) ++
          (hardResetSequence (hardNv { c with nvChanged := true })).take m) ∧
      ((checkNvParams t c).1 = ResetResult.resolved →
        (checkNvParams t c).2.nvChanged = false) ∧
      (ResolvesBefore t (c.issued.length + (k + 1))
          (hardResetSequence (hardNv { c with nvChanged := true })) 11 →
        (checkNvParams t c).1 = ResetResult.resolved ∧
        (checkNvParams t c).2.nvChanged = false)) ∧
    (∀ k e r, MatchesBefore t c.issued.length (readSequence c.nvParams) k →
      (readSequence c.nvParams)[k]? = some e →
      settle t (c.issued.length + k) (readRequest e) = Settled.rejected r →
      r.message ≠ some "rsp error: 2" →
      checkNvParams t c = (ResetResult.rejected r,
        { c with
          issued := c.issued ++ ((readSequence c.nvParams).map readRequest).take (k + 1) })) ∧
    (∀ k e rsp, MatchesBefore t c.issued.length (readSequence c.nvParams) k →
      (readSequence c.nvParams)[k]? = some e →
      settle t (c.issued.length + k) (readRequest e) = Settled.resolved rsp →
      rsp.bind (fun r => r.value) = none →
      checkNvParams t c = (ResetResult.rejected Rejection.typeError,
        { c with
          issued := c.issued ++ ((readSequence c.nvParams).map readRequest).take (k + 1) })) := by
  have hmap : checkEntries.map (fun f => readRequest (f c.nvParams)) =
      (readSequence c.nvParams).map readRequest := rfl
  have hlen : checkEntries.length = 4 := rfl
  refine ⟨?_, ?_, ?_, ?_⟩
  · intro hm
    have hv := readVerdict_of_matches t c.issued.length c.nvParams 4 hm
    have hrun := runReads_resolved t checkEntries c (by
      intro j f hf
      have hj : j < 4 := by
        have := (List.getElem?_eq_some.1 hf).1
        simpa [hlen] using this
      exact hv j f hj hf)
    simp only [checkNvParams, hrun, hmap]
  · intro k e hm hk hcase
    have hv := readVerdict_of_matches t c.issued.length c.nvParams k hm
    have hkf : ∃ f, checkEntries[k]? = some f ∧ f c.nvParams = e := by
      rw [← checkEntries_sequence, List.getElem?_map] at hk
      cases hf : checkEntries[k]? with
      | none => simp [hf] at hk
      | some f => exact ⟨f, rfl, by simpa [hf] using hk⟩
    obtain ⟨f, hf, hfe⟩ := hkf
    have hver : ∃ r, readVerdict t (c.issued.length + k) (f c.nvParams) = Settled.rejected r ∧
        wantsReset r = true := by
      rw [hfe]
      rcases hcase with ⟨rsp, bytes, hs, hb, hne⟩ | hs
      · exact ⟨Rejection.value (StrOrNum.str "reset"),
          by simp [readVerdict, hs, hb, hne], by decide⟩
      · exact ⟨Rejection.error ⟨"rsp error: 2"⟩, by simp [readVerdict, hs], by decide⟩
    obtain ⟨r, hr, hw⟩ := hver
    have hrun := runReads_rejected t checkEntries c k f r hv hf hr
    have heq : checkNvParams t c =
        reset t { c with
          issued := c.issued ++ ((readSequence c.nvParams).map readRequest).take (k + 1),
          nvChanged := true } (StrOrNum.str "hard") := by
      simp only [checkNvParams, hrun, hw, if_true, hmap]
    refine ⟨heq, ?_, ?_, ?_, ?_⟩
    · rw [heq, reset_resetCalls]
    · rw [heq]
      exact reset_hard_issued t _
    · rw [heq]
      exact reset_resolved_clears t _ _
    · intro hres
      rw [heq]
      have h4 := reset_hard_resolved t { c with
          issued := c.issued ++ ((readSequence c.nvParams).map readRequest).take (k + 1),
          nvChanged := true } (StrOrNum.str "hard") (Or.inl rfl)
      have hk4 : k < 4 := by
        have := (List.getElem?_eq_some.1 hf).1
        simpa [hlen] using this
      have hl : (c.issued ++ ((readSequence c.nvParams).map readRequest).take (k + 1)).length =
          c.issued.length + (k + 1) := by
        simp [readSequence]; omega
      have h5 := h4 (by
        simp only [hl]
        exact hres)
      have h6 : (reset t { c with
          issued := c.issued ++ ((readSequence c.nvParams).map readRequest).take (k + 1),
          nvChanged := true } (StrOrNum.str "hard")).1 = ResetResult.resolved := by
        simpa using h5.2
      exact ⟨h6, reset_resolved_clears t _ _ h6⟩
  · intro k e r hm hk hs hne
    have hv := readVerdict_of_matches t c.issued.length c.nvParams k hm
    have hkf : ∃ f, checkEntries[k]? = some f ∧ f c.nvParams = e := by
      rw [← checkEntries_sequence, List.getElem?_map] at hk
      cases hf : checkEntries[k]? with
      | none => simp [hf] at hk
      | some f => exact ⟨f, rfl, by simpa [hf] using hk⟩
    obtain ⟨f, hf, hfe⟩ := hkf
    have hr : readVerdict t (c.issued.length + k) (f c.nvParams) = Settled.rejected r := by
      rw [hfe]; simp [readVerdict, hs]
    have hrun := runReads_rejected t checkEntries c k f r hv hf hr
    obtain ⟨err, rfl⟩ := settle_rejected_error t _ _ r hs
    have hw : wantsReset (Rejection.error err) = false := by
      simp only [Rejection.message, ne_eq, Option.some.injEq] at hne
      simp [wantsReset, Rejection.message, hne]
    simp only [checkNvParams, hrun, hw, hmap]
    rfl
  · intro k e rsp hm hk hs hnone
    have hv := readVerdict_of_matches t c.issued.length c.nvParams k hm
    have hkf : ∃ f, checkEntries[k]? = some f ∧ f c.nvParams = e := by
      rw [← checkEntries_sequence, List.getElem?_map] at hk
      cases hf : checkEntries[k]? with
      | none => simp [hf] at hk
      | some f => exact ⟨f, rfl, by simpa [hf] using hk⟩
    obtain ⟨f, hf, hfe⟩ := hkf
    have hr : readVerdict t (c.issued.length + k) (f c.nvParams) =
        Settled.rejected Rejection.typeError := by
      rw [hfe]; simp [readVerdict, hs, hnone]
    have hrun := runReads_rejected t checkEntries c k f _ hv hf hr
    have hw : wantsReset Rejection.typeError = false := by decide
    simp only [checkNvParams, hrun, hw, hmap]
    rfl

/-- C5, witness: the pan id reads back as `[0, 0]` while `[0xFF, 0xFF]` is held
locally.  One `reset('hard')` is entered with `_nvChanged` set; the transport
answers every write, so the result is resolved and `_nvChanged` is cleared. -/
theorem checkNvParams_decides_witness :
    (checkNvParams (readsBack [0, 0]) (sampleCtrl false)).2.resetCalls =
      [] ++ [⟨StrOrNum.str "hard", true⟩] ∧
    (checkNvParams (readsBack [0, 0]) (sampleCtrl false)).1 = ResetResult.resolved ∧
    (checkNvParams (readsBack [0, 0]) (sampleCtrl false)).2.nvChanged = false :=
  have h := (checkNvParams_decides (readsBack [0, 0]) (sampleCtrl false)).2.1 0 sampleNv.panId
    (by intro j e hj; omega) (by decide)
    (Or.inl ⟨⟨some (StrOrNum.num 0), some [0, 0]⟩, [0, 0], by decide, rfl, by decide⟩)
  ⟨h.2.1, h.2.2.2.2 (by
    intro j req _ _
    exact ⟨some ⟨some (StrOrNum.num 0), some [0, 0]⟩, by simp [settle, rspHdlr, readsBack]⟩)⟩

theorem reset_rejected_frame (t : Transport) (c : Ctrl) (r : Rejection)
    (h : (reset t c (StrOrNum.str "hard")).1 = ResetResult.rejected r) :
    (reset t c (StrOrNum.str "hard")).2.nvParams = hardNv c ∧
    (reset t c (StrOrNum.str "hard")).2.nvChanged = c.nvChanged := by
  have hb := resetBody_hard t
    { c with resetCalls := c.resetCalls ++ [⟨StrOrNum.str "hard", c.nvChanged⟩] }
    (StrOrNum.str "hard") (Or.inl rfl)
  have hnv : hardNv { c with resetCalls := c.resetCalls ++
      [⟨StrOrNum.str "hard", c.nvChanged⟩] } = hardNv c := rfl
  have hf := runSteps_frame t hardSteps
    { c with resetCalls := c.resetCalls ++ [⟨StrOrNum.str "hard", c.nvChanged⟩],
             resetting := true, nvParams := hardNv c }
  simp only [reset] at h ⊢
  rw [hb, hnv] at h ⊢
  generalize runSteps t _ hardSteps = res at h hf ⊢
  obtain ⟨s, c1⟩ := res
  cases s with
  | resolved u =>
    simp only at h
    split at h <;> simp at h
  | rejected r1 =>
    simp only at hf ⊢
    rw [hf]
    exact ⟨rfl, rfl⟩

theorem reset_resolved_restores (t : Transport) (c : Ctrl)
    (h : (reset t c (StrOrNum.str "hard")).1 = ResetResult.resolved) :
    jsFirst (reset t c (StrOrNum.str "hard")).2.nvParams.startupOption.value =
      jsFirst c.nvParams.startupOption.value ∧
    (reset t c (StrOrNum.str "hard")).2.nvChanged = false := by
  refine ⟨?_, reset_resolved_clears t c _ h⟩
  simp only [reset] at h ⊢
  split at h
  · split at h
    · next hc =>
      simp only [hc, if_true, setStartupOption]
      cases hv : jsFirst c.nvParams.startupOption.value <;> simp [jsSetFirst, jsFirst]
    · simp at h
  · simp at h

/-- C6, at the failing input: `_nvChanged` is set, the startup option is
`[0x00]` and the first request of the hard reset fails.  `reset` rejects and
leaves the startup option at `0x02` and `_nvChanged` set. -/
theorem startup_option_toggle_outlives_failed_reset :
    jsFirst (sampleCtrl true).nvParams.startupOption.value = some 0 ∧
    (reset (failingAt 0) (sampleCtrl true) (StrOrNum.str "hard")).1 =
      ResetResult.rejected (Rejection.error ⟨"request timeout"⟩) ∧
    jsFirst (reset (failingAt 0) (sampleCtrl true)
      (StrOrNum.str "hard")).2.nvParams.startupOption.value = some 2 ∧
    (reset (failingAt 0) (sampleCtrl true) (StrOrNum.str "hard")).2.nvChanged = true := by
  decide

/-! ## Endpoint registration (C7, C8) -/

theorem request_af_register (t : Transport) (issued : List Request) (loEp : Coordpoint) :
    request t issued (StrOrNum.str "AF") (StrOrNum.str "register")
        (ValObj.afRegister (makeRegParams loEp)) =
      (settle t issued.length (registerRequest loEp), issued ++ [registerRequest loEp]) := by
  have h1 : upperCase (StrOrNum.str "AF") = StrOrNum.str "AF" := by decide
  have h2 : isZdo (StrOrNum.str "AF") = false := by decide
  simp only [request, settle, registerRequest, znpRequest, mkRequest, h1, h2]

theorem request_af_delete (t : Transport) (issued : List Request) (loEp : Coordpoint) :
    request t issued (StrOrNum.str "AF") (StrOrNum.str "delete") (ValObj.afDelete loEp.epId) =
      (settle t issued.length (deleteRequest loEp), issued ++ [deleteRequest loEp]) := by
  have h1 : upperCase (StrOrNum.str "AF") = StrOrNum.str "AF" := by decide
  have h2 : isZdo (StrOrNum.str "AF") = false := by decide
  simp only [request, settle, deleteRequest, znpRequest, mkRequest, h1, h2]

/-- C7, as the code has it: when the first AF register fails with
`'rsp error: 184'`, `registerEp` goes through `deregisterEp`.  If the endpoint
is tracked and the AF delete succeeds, exactly one delete and one further
register are issued and the result is that of the second register.  If the
endpoint is not tracked no further request is issued and the result is the
not-maintained error; if the delete fails no further register is issued and the
result is the error of the delete.  A first register failing with any other
error is the result, with no further request; a first register that succeeds
is the result as well. -/
theorem registerEp_busy_recovery (t : Transport) (s : EpState) (loEp : Coordpoint) :
    (∀ r rsp, settle t s.issued.length (registerRequest loEp) = Settled.rejected r →
      r.message = some "rsp error: 184" → includes s.coordEps loEp = true →
      settle t (s.issued.length + 1) (deleteRequest loEp) = Settled.resolved rsp →
      registerEp t s loEp =
        (settle t (s.issued.length + 2) (registerRequest loEp),
          { coordEps := deleteKey s.coordEps loEp.epId,
            issued := s.issued ++
              [registerRequest loEp, deleteRequest loEp, registerRequest loEp] })) ∧
    (∀ r, settle t s.issued.length (registerRequest loEp) = Settled.rejected r →
      r.message = some "rsp error: 184" → includes s.coordEps loEp = false →
      registerEp t s loEp =
        (Settled.rejected notMaintained,
          { s with issued := s.issued ++ [registerRequest loEp] })) ∧
    (∀ r r2, settle t s.issued.length (registerRequest loEp) = Settled.rejected r →
      r.message = some "rsp error: 184" → includes s.coordEps loEp = true →
      settle t (s.issued.length + 1) (deleteRequest loEp) = Settled.rejected r2 →
      registerEp t s loEp =
        (Settled.rejected r2,
          { s with issued := s.issued ++ [registerRequest loEp, deleteRequest loEp] })) ∧
    (∀ r, settle t s.issued.length (registerRequest loEp) = Settled.rejected r →
      r.message ≠ some "rsp error: 184" →
      registerEp t s loEp =
        (Settled.rejected r, { s with issued := s.issued ++ [registerRequest loEp] })) ∧
    (∀ rsp, settle t s.issued.length (registerRequest loEp) = Settled.resolved rsp →
      registerEp t s loEp =
        (Settled.resolved rsp, { s with issued := s.issued ++ [registerRequest loEp] })) := by
  refine ⟨?_, ?_, ?_, ?_, ?_⟩
  · intro r rsp h1 hm hin h2
    simp [registerEp, reRegisterEp, deregisterEp, request_af_register, request_af_delete,
      h1, hm, hin, h2]
  · intro r h1 hm hin
    simp [registerEp, reRegisterEp, deregisterEp, request_af_register, h1, hm, hin]
  · intro r r2 h1 hm hin h2
    simp [registerEp, reRegisterEp, deregisterEp, request_af_register, request_af_delete,
      h1, hm, hin, h2]
  · intro r h1 hm
    simp [registerEp, request_af_register, h1, hm]
  · intro rsp h1
    simp [registerEp, request_af_register, h1]

/-- C7, counterexample: the first register fails with status 184.  With the
endpoint tracked and the AF delete failing with status 1, no second register is
issued and the result is the error of the delete.  With the endpoint not
tracked, no delete is issued either and the result is the not-maintained
error. -/
theorem registerEp_busy_without_second_register :
    registerEp (answering [184, 1]) ⟨[(11, sampleEp 0 11)], []⟩ (sampleEp 0 11) =
      (Settled.rejected (Rejection.error ⟨"rsp error: 1"⟩),
        ⟨[(11, sampleEp 0 11)],
          [registerRequest (sampleEp 0 11), deleteRequest (sampleEp 0 11)]⟩) ∧
    registerEp (answering [184]) ⟨[], []⟩ (sampleEp 0 11) =
      (Settled.rejected notMaintained, ⟨[], [registerRequest (sampleEp 0 11)]⟩) := by
  decide

/-- C7, witness: the endpoint is tracked, the first register fails with status
184 and the delete succeeds.  One delete and one further register are issued,
and the result is the response of the second register. -/
theorem registerEp_busy_recovery_witness :
    registerEp (answering [184, 0, 0]) ⟨[(11, sampleEp 0 11)], []⟩ (sampleEp 0 11) =
      (Settled.resolved (some ⟨some (StrOrNum.num 0), none⟩),
        ⟨[], [registerRequest (sampleEp 0 11), deleteRequest (sampleEp 0 11),
          registerRequest (sampleEp 0 11)]⟩) :=
  (registerEp_busy_recovery (answering [184, 0, 0]) ⟨[(11, sampleEp 0 11)], []⟩
    (sampleEp 0 11)).1 (Rejection.error ⟨"rsp error: 184"⟩)
    (some ⟨some (StrOrNum.num 0), none⟩) (by decide) (by decide) (by decide) (by decide)

theorem includes_iff (coordEps : List (Nat × Coordpoint)) (loEp : Coordpoint) :
    includes coordEps loEp = true ↔ ∃ k, (k, loEp) ∈ coordEps := by
  simp only [includes, List.any_eq_true, beq_iff_eq]
  constructor
  · rintro ⟨⟨k, e⟩, hmem, rfl⟩; exact ⟨k, hmem⟩
  · rintro ⟨k, hmem⟩; exact ⟨(k, loEp), hmem, rfl⟩

theorem includes_deleteKey_self (coordEps : List (Nat × Coordpoint)) (loEp : Coordpoint)
    (h : KeyedById coordEps) : includes (deleteKey coordEps loEp.epId) loEp = false := by
  rw [Bool.eq_false_iff]
  intro hin
  obtain ⟨k, hk⟩ := (includes_iff _ _).1 hin
  simp only [deleteKey, List.mem_filter, bne_iff_ne, ne_eq] at hk
  exact hk.2 (h.2 (k, loEp) hk.1)

theorem includes_deleteKey_other (coordEps : List (Nat × Coordpoint)) (loEp e : Coordpoint)
    (h : KeyedById coordEps) (hl : includes coordEps loEp = true) (hne : e ≠ loEp)
    (he : includes coordEps e = true) : includes (deleteKey coordEps loEp.epId) e = true := by
  obtain ⟨k, hk⟩ := (includes_iff _ _).1 he
  obtain ⟨k2, hk2⟩ := (includes_iff _ _).1 hl
  apply (includes_iff _ _).2
  refine ⟨k, ?_⟩
  simp only [deleteKey, List.mem_filter, bne_iff_ne, ne_eq]
  refine ⟨hk, fun hkk => ?_⟩
  have h2 : k2 = loEp.epId := h.2 (k2, loEp) hk2
  have hkeq : k = k2 := by rw [hkk, h2]
  subst hkeq
  have hinj := List.inj_on_of_nodup_map h.1 hk hk2 rfl
  exact hne (by simpa using congrArg Prod.snd hinj)

theorem includes_of_deleteKey (coordEps : List (Nat × Coordpoint)) (key : Nat) (e : Coordpoint)
    (he : includes (deleteKey coordEps key) e = true) : includes coordEps e = true := by
  obtain ⟨k, hk⟩ := (includes_iff _ _).1 he
  exact (includes_iff _ _).2 ⟨k, (List.mem_filter.1 hk).1⟩

theorem mem_deleteKey (coordEps : List (Nat × Coordpoint)) (key k : Nat) (e : Coordpoint) :
    (k, e) ∈ deleteKey coordEps key ↔ (k, e) ∈ coordEps ∧ k ≠ key := by
  simp [deleteKey]

/-- C8, as the code has it: `deregisterEp` of an endpoint that is not tracked
rejects with the not-maintained error, issues no request and leaves the tracked
endpoints as they are; for a tracked endpoint it issues one AF delete, and if
that fails the tracked endpoints are unchanged, while if it succeeds the
property stored under the endpoint's id is deleted and every other property is
kept.  When the endpoints object is keyed by endpoint id, the endpoint is
therefore no longer tracked, every other tracked endpoint still is, and nothing
else has become tracked. -/
theorem deregisterEp_tracked_set (t : Transport) (s : EpState) (loEp : Coordpoint) :
    (includes s.coordEps loEp = false →
      deregisterEp t s loEp = (Settled.rejected notMaintained, s)) ∧
    (∀ r, includes s.coordEps loEp = true →
      settle t s.issued.length (deleteRequest loEp) = Settled.rejected r →
      deregisterEp t s loEp =
        (Settled.rejected r, { s with issued := s.issued ++ [deleteRequest loEp] })) ∧
    (∀ rsp, includes s.coordEps loEp = true →
      settle t s.issued.length (deleteRequest loEp) = Settled.resolved rsp →
      (deregisterEp t s loEp).1 = Settled.resolved rsp ∧
      (deregisterEp t s loEp).2.issued = s.issued ++ [deleteRequest loEp] ∧
      (∀ k e, (k, e) ∈ (deregisterEp t s loEp).2.coordEps ↔
        (k, e) ∈ s.coordEps ∧ k ≠ loEp.epId) ∧
      (KeyedById s.coordEps →
        includes (deregisterEp t s loEp).2.coordEps loEp = false ∧
        (∀ e, e ≠ loEp → includes s.coordEps e = true →
          includes (deregisterEp t s loEp).2.coordEps e = true) ∧
        (∀ e, includes (deregisterEp t s loEp).2.coordEps e = true →
          includes s.coordEps e = true))) := by
  refine ⟨?_, ?_, ?_⟩
  · intro hin
    simp [deregisterEp, hin]
  · intro r hin hs
    simp [deregisterEp, hin, request_af_delete, hs]
  · intro rsp hin hs
    have heq : deregisterEp t s loEp =
        (Settled.resolved rsp,
          { coordEps := deleteKey s.coordEps loEp.epId,
            issued := s.issued ++ [deleteRequest loEp] }) := by
      simp [deregisterEp, hin, request_af_delete, hs]
    rw [heq]
    exact ⟨rfl, rfl, fun k e => mem_deleteKey _ _ k e,
      fun hk => ⟨includes_deleteKey_self _ _ hk,
        fun e hne he => includes_deleteKey_other _ _ e hk hin hne he,
        fun e he => includes_of_deleteKey _ _ e he⟩⟩

/-- C8, counterexample: an endpoint with id 11 is stored under key 5 and another
endpoint, with id 3, under key 11.  Deregistering the first, with the AF delete
confirmed, deletes the property under key 11: the first endpoint is still
tracked and the other one no longer is. -/
theorem deregisterEp_not_keyed_by_id :
    includes [(5, sampleEp 0 11), (11, sampleEp 1 3)] (sampleEp 0 11) = true ∧
    (deregisterEp (answering []) ⟨[(5, sampleEp 0 11), (11, sampleEp 1 3)], []⟩
      (sampleEp 0 11)).1 = Settled.resolved (some ⟨some (StrOrNum.num 0), none⟩) ∧
    includes (deregisterEp (answering []) ⟨[(5, sampleEp 0 11), (11, sampleEp 1 3)], []⟩
      (sampleEp 0 11)).2.coordEps (sampleEp 0 11) = true ∧
    includes [(5, sampleEp 0 11), (11, sampleEp 1 3)] (sampleEp 1 3) = true ∧
    includes (deregisterEp (answering []) ⟨[(5, sampleEp 0 11), (11, sampleEp 1 3)], []⟩
      (sampleEp 0 11)).2.coordEps (sampleEp 1 3) = false := by
  decide

/-- C8, witness: endpoints 1 and 11 are tracked, each under its own id, and
endpoint 11 is deregistered on a transport that confirms the delete. -/
theorem deregisterEp_tracked_set_witness :
    KeyedById [(1, sampleEp 0 1), (11, sampleEp 1 11)] ∧
    includes (deregisterEp (answering []) ⟨[(1, sampleEp 0 1), (11, sampleEp 1 11)], []⟩
      (sampleEp 1 11)).2.coordEps (sampleEp 1 11) = false ∧
    includes (deregisterEp (answering []) ⟨[(1, sampleEp 0 1), (11, sampleEp 1 11)], []⟩
      (sampleEp 1 11)).2.coordEps (sampleEp 0 1) = true :=
  have hk : KeyedById [(1, sampleEp 0 1), (11, sampleEp 1 11)] :=
    ⟨by decide, by decide⟩
  have h := (deregisterEp_tracked_set (answering [])
    ⟨[(1, sampleEp 0 1), (11, sampleEp 1 11)], []⟩ (sampleEp 1 11)).2.2
    (some ⟨some (StrOrNum.num 0), none⟩) (by decide) (by decide)
  ⟨hk, (h.2.2.2 hk).1, (h.2.2.2 hk).2.1 (sampleEp 0 1) (by decide) (by decide)⟩

/-! ## Permit join (C9, C10) -/

theorem request_permitJoin (t : Transport) (issued : List Request) (addrmode dstaddr : Nat)
    (time : ℚ) :
    request t issued (StrOrNum.str "ZDO") (StrOrNum.str "mgmtPermitJoinReq")
        (ValObj.mgmtPermitJoinReq addrmode dstaddr time 0) =
      (settle t issued.length (permitRequest addrmode dstaddr time),
        issued ++ [permitRequest addrmode dstaddr time]) := by
  have h1 : upperCase (StrOrNum.str "ZDO") = StrOrNum.str "ZDO" := by decide
  have h2 : isZdo (StrOrNum.str "ZDO") = true := by decide
  simp only [request, settle, permitRequest, mkRequest, h1, h2]

theorem clearInterval_frame (s : PermitState) (handle : Option Nat) :
    clearInterval s handle = { s with intervals := (clearInterval s handle).intervals } := by
  cases handle <;> rfl

theorem permitJoin_resolved (t : Transport) (s : PermitState) (time : ℚ) (type : StrOrNum)
    (addrmode dstaddr : Nat) (rsp : Option Rsp)
    (hscope : joinScope type = some (addrmode, dstaddr)) (h0 : 0 ≤ time) (h255 : time ≤ 255)
    (hrsp : settle t s.issued.length (permitRequest addrmode dstaddr time) =
      Settled.resolved rsp) :
    permitJoin t s time type = (Settled.resolved rsp, permitJoined s addrmode dstaddr time) := by
  have hr : ¬(time > 255 ∨ time < 0) := by
    rintro (h | h)
    · exact absurd h255 (not_le.2 h)
    · exact absurd h0 (not_le.2 h)
  simp only [permitJoin, hscope, if_neg hr, request_permitJoin, hrsp, permitJoined]
  by_cases ht : time ≠ 0 ∧ time ≠ 255
  · rw [if_pos ht, if_pos ht]
    cases hh : s.permitJoinInterval <;> simp [clearInterval, hh]
  · rw [if_neg ht, if_neg ht]

theorem settle_answering (statuses : List Int) (i : Nat) (addrmode dstaddr : Nat) (time : ℚ) :
    settle (answering statuses) i (permitRequest addrmode dstaddr time) =
      Settled.resolved (some ⟨some (StrOrNum.num (statuses.getD i 0)), none⟩) := by
  have h2 : isZdo (StrOrNum.str "ZDO") = true := by decide
  simp [settle, rspHdlr, answering, permitRequest, h2]

theorem floor_half : ⌊(1 / 2 : ℚ)⌋ = 0 := by
  rw [Int.floor_eq_iff]; norm_num

/-- C9, at the failing input: `permitJoin(0.5, 'coord')` succeeds with
`joinTimeLeft` equal to `floor(0.5) = 0`, yet it starts a tick timer, because
`0.5` is neither 0 nor 255.  The first tick takes `joinTimeLeft` to -1, and the
timer, which stops only on a tick that reaches 0, is still running after it. -/
theorem permitJoin_fraction_counts_below_zero :
    (permitJoin (answering []) PermitState.fresh (1 / 2) (StrOrNum.str "coord")).1 =
      Settled.resolved (some ⟨some (StrOrNum.num 0), none⟩) ∧
    (permitJoin (answering []) PermitState.fresh (1 / 2)
      (StrOrNum.str "coord")).2.permitJoinTime = 0 ∧
    (permitJoin (answering []) PermitState.fresh (1 / 2)
      (StrOrNum.str "coord")).2.intervals = [0] ∧
    (tick (permitJoin (answering []) PermitState.fresh (1 / 2) (StrOrNum.str "coord")).2
      0).permitJoinTime = -1 ∧
    (tick (permitJoin (answering []) PermitState.fresh (1 / 2) (StrOrNum.str "coord")).2
      0).intervals = [0] := by
  have h := permitJoin_resolved (answering []) PermitState.fresh (1 / 2) (StrOrNum.str "coord")
    2 0 _ (by decide) (by norm_num) (by norm_num) (settle_answering [] _ 2 0 (1 / 2))
  have hp : permitJoined PermitState.fresh 2 0 (1 / 2) =
      { permitJoinTime := 0, permitJoinInterval := some 0, intervals := [0], nextTimer := 1,
        issued := [permitRequest 2 0 (1 / 2)], emitted := [0] } := by
    have hne : (1 / 2 : ℚ) ≠ 0 ∧ (1 / 2 : ℚ) ≠ 255 := by norm_num
    simp only [permitJoined, if_pos hne, floor_half]
    rfl
  rw [h, hp]
  refine ⟨rfl, rfl, rfl, ?_, ?_⟩ <;> simp [tick, permitJoinCountdown, clearInterval]

/-- C10, at the failing input: `permitJoin(60, 'coord')` starts timer 0; the
following `permitJoin(0, 'coord')` succeeds and sets `joinTimeLeft` to 0, but
clears no timer, because `clearInterval` sits under `time !== 0 && time !== 255`.
Timer 0 is still alive, and its next tick takes the countdown set by the second
call to -1 without stopping. -/
theorem permitJoin_zero_leaves_timer_running :
    (permitJoin (answering []) PermitState.fresh 60 (StrOrNum.str "coord")).2.intervals = [0] ∧
    (permitJoin (answering [])
      (permitJoin (answering []) PermitState.fresh 60 (StrOrNum.str "coord")).2 0
      (StrOrNum.str "coord")).1 = Settled.resolved (some ⟨some (StrOrNum.num 0), none⟩) ∧
    (permitJoin (answering [])
      (permitJoin (answering []) PermitState.fresh 60 (StrOrNum.str "coord")).2 0
      (StrOrNum.str "coord")).2.permitJoinTime = 0 ∧
    (permitJoin (answering [])
      (permitJoin (answering []) PermitState.fresh 60 (StrOrNum.str "coord")).2 0
      (StrOrNum.str "coord")).2.intervals = [0] ∧
    (tick (permitJoin (answering [])
      (permitJoin (answering []) PermitState.fresh 60 (StrOrNum.str "coord")).2 0
      (StrOrNum.str "coord")).2 0).permitJoinTime = -1 ∧
    (tick (permitJoin (answering [])
      (permitJoin (answering []) PermitState.fresh 60 (StrOrNum.str "coord")).2 0
      (StrOrNum.str "coord")).2 0).intervals = [0] := by
  have h1 := permitJoin_resolved (answering []) PermitState.fresh 60 (StrOrNum.str "coord")
    2 0 _ (by decide) (by norm_num) (by norm_num) (settle_answering [] _ 2 0 60)
  have hp1 : permitJoined PermitState.fresh 2 0 60 =
      { permitJoinTime := 60, permitJoinInterval := some 0, intervals := [0], nextTimer := 1,
        issued := [permitRequest 2 0 60], emitted := [60] } := by
    have hne : (60 : ℚ) ≠ 0 ∧ (60 : ℚ) ≠ 255 := by norm_num
    have hf : ⌊(60 : ℚ)⌋ = 60 := Int.floor_natCast 60
    simp only [permitJoined, if_pos hne, hf]
    rfl
  rw [h1, hp1]
  have h2 := permitJoin_resolved (answering [])
    { permitJoinTime := 60, permitJoinInterval := some 0, intervals := [0], nextTimer := 1,
      issued := [permitRequest 2 0 60], emitted := [60] } 0 (StrOrNum.str "coord")
    2 0 _ (by decide) (by norm_num) (by norm_num) (settle_answering [] _ 2 0 0)
  have hp2 : permitJoined
      { permitJoinTime := 60, permitJoinInterval := some 0, intervals := [0], nextTimer := 1,
        issued := [permitRequest 2 0 60], emitted := [60] } 2 0 0 =
      { permitJoinTime := 0, permitJoinInterval := some 0, intervals := [0], nextTimer := 1,
        issued := [permitRequest 2 0 60, permitRequest 2 0 0], emitted := [60, 0] } := by
    have hne : ¬((0 : ℚ) ≠ 0 ∧ (0 : ℚ) ≠ 255) := by norm_num
    have hf : ⌊(0 : ℚ)⌋ = 0 := Int.floor_zero
    simp only [permitJoined, if_neg hne, hf]
    rfl
  rw [h2, hp2]
  refine ⟨rfl, rfl, rfl, rfl, ?_, ?_⟩ <;> simp [tick, permitJoinCountdown, clearInterval]

theorem ticks_dead (s : PermitState) (h : Nat) (k : Nat) (hd : s.intervals.contains h = false) :
    ticks s h k = s := by
  induction k with
  | zero => rfl
  | succ k ih =>
    have ht : tick s h = s := by simp only [tick, hd, Bool.false_eq_true, if_false]
    simp only [ticks, ht, ih]

theorem ticks_add (s : PermitState) (h : Nat) (j k : Nat) :
    ticks s h (j + k) = ticks (ticks s h j) h k := by
  induction j generalizing s with
  | zero => simp [ticks]
  | succ j ih =>
    have : j + 1 + k = (j + k) + 1 := by omega
    rw [this]
    simp only [ticks]
    exact ih (tick s h)

theorem ticks_countdown (h : Nat) (k : Nat) :
    ∀ (m : Nat) (s : PermitState), s.intervals = [h] → s.permitJoinInterval = some h →
      s.permitJoinTime = (m : Int) → 0 < m → k ≤ m →
      (ticks s h k).permitJoinTime = (m : Int) - k ∧
      (ticks s h k).intervals = if k < m then [h] else [] := by
  induction k with
  | zero =>
    intro m s hi _ ht hm _
    simp [ticks, ht, hi, hm]
  | succ k ih =>
    intro m s hi hp ht hm hk
    simp only [ticks]
    by_cases h1 : m = 1
    · subst h1
      have hk0 : k = 0 := by omega
      subst hk0
      simp [ticks, tick, permitJoinCountdown, clearInterval, hi, hp, ht]
    · have hs : (tick s h).intervals = [h] ∧ (tick s h).permitJoinInterval = some h ∧
          (tick s h).permitJoinTime = ((m - 1 : Nat) : Int) := by
        have hne : (m : Int) - 1 ≠ 0 := by omega
        simp only [tick, permitJoinCountdown, hi, ht, hne, if_false]
        simp [hp, hi]
        omega
      obtain ⟨r1, r2⟩ := ih (m - 1) (tick s h) hs.1 hs.2.1 hs.2.2 (by omega) (by omega)
      refine ⟨by rw [r1]; omega, ?_⟩
      rw [r2]
      by_cases hlt : k < m - 1
      · rw [if_pos hlt, if_pos (by omega)]
      · rw [if_neg hlt, if_neg (by omega)]

/-- C9, where the claim holds: for a whole number of seconds in [0, 255], on a
Controller with no timer, a successful `permitJoin` sets `joinTimeLeft` to the
seconds; for 0 and 255 no timer is started; otherwise each of the first
`seconds` ticks decrements `joinTimeLeft` by one, the timer is alive before the
tick that reaches 0 and stopped from then on, and `joinTimeLeft` is never
negative. -/
theorem permitJoin_countdown_whole_seconds (t : Transport) (n : Nat) (type : StrOrNum)
    (addrmode dstaddr : Nat) (rsp : Option Rsp)
    (hscope : joinScope type = some (addrmode, dstaddr)) (hn : n ≤ 255)
    (hrsp : settle t 0 (permitRequest addrmode dstaddr n) = Settled.resolved rsp) :
    (permitJoin t PermitState.fresh n type).1 = Settled.resolved rsp ∧
    (permitJoin t PermitState.fresh n type).2.permitJoinTime = n ∧
    (n = 0 ∨ n = 255 → (permitJoin t PermitState.fresh n type).2.intervals = []) ∧
    (n ≠ 0 → n ≠ 255 → ∀ k, k ≤ n →
      (ticks (permitJoin t PermitState.fresh n type).2 0 k).permitJoinTime = (n : Int) - k ∧
      (ticks (permitJoin t PermitState.fresh n type).2 0 k).intervals =
        if k < n then [0] else []) ∧
    (∀ k, 0 ≤ (ticks (permitJoin t PermitState.fresh n type).2 0 k).permitJoinTime) := by
  have h := permitJoin_resolved t PermitState.fresh n type addrmode dstaddr rsp hscope
    (by positivity) (by exact_mod_cast hn) hrsp
  have hf : ⌊(n : ℚ)⌋ = (n : Int) := Int.floor_natCast n
  rw [h]
  by_cases hs : n = 0 ∨ n = 255
  · have hne : ¬((n : ℚ) ≠ 0 ∧ (n : ℚ) ≠ 255) := by
      rcases hs with h0 | h0 <;> subst h0 <;> norm_num
    have hp : permitJoined PermitState.fresh addrmode dstaddr n =
        { PermitState.fresh with
          permitJoinTime := n,
          issued := [permitRequest addrmode dstaddr n],
          emitted := [(n : Int)] } := by
      simp only [permitJoined, if_neg hne, hf]
      rfl
    rw [hp]
    refine ⟨rfl, rfl, fun _ => rfl, fun h0 h255 => ?_, fun k => ?_⟩
    · rcases hs with h1 | h1
      · exact absurd h1 h0
      · exact absurd h1 h255
    · rw [ticks_dead _ 0 k (by rfl)]
      exact Int.natCast_nonneg n
  · have h0 : n ≠ 0 := fun hh => hs (Or.inl hh)
    have h255 : n ≠ 255 := fun hh => hs (Or.inr hh)
    have hne : (n : ℚ) ≠ 0 ∧ (n : ℚ) ≠ 255 := by
      constructor
      · exact_mod_cast h0
      · exact_mod_cast h255
    have hp : permitJoined PermitState.fresh addrmode dstaddr n =
        { permitJoinTime := n, permitJoinInterval := some 0, intervals := [0], nextTimer := 1,
          issued := [permitRequest addrmode dstaddr n], emitted := [(n : Int)] } := by
      simp only [permitJoined, if_pos hne, hf]
      rfl
    rw [hp]
    have hc := fun k (hk : k ≤ n) => ticks_countdown 0 k n
      { permitJoinTime := n, permitJoinInterval := some 0, intervals := [0], nextTimer := 1,
        issued := [permitRequest addrmode dstaddr n], emitted := [(n : Int)] }
      rfl rfl rfl (by omega) hk
    refine ⟨rfl, rfl, fun hh => absurd hh hs, fun _ _ k hk => hc k hk, fun k => ?_⟩
    by_cases hk : k ≤ n
    · rw [(hc k hk).1]; omega
    · have hkn : k = n + (k - n) := by omega
      rw [hkn, ticks_add]
      have hd := (hc n (le_refl n)).2
      simp only [lt_irrefl, if_false] at hd
      rw [ticks_dead _ 0 (k - n) (by rw [hd]; rfl), (hc n (le_refl n)).1]
      omega

/-- C9, the witness of the claim: `permitJoin(5, 'coord')` followed by five
ticks gives 5, 4, 3, 2, 1, 0 and a stopped timer. -/
theorem permitJoin_countdown_five :
    (List.range 6).map (fun k =>
      (ticks (permitJoin (answering []) PermitState.fresh (5 : Nat) (StrOrNum.str "coord")).2
        0 k).permitJoinTime) = [5, 4, 3, 2, 1, 0] ∧
    (ticks (permitJoin (answering []) PermitState.fresh (5 : Nat) (StrOrNum.str "coord")).2
      0 5).intervals = [] := by
  have h := (permitJoin_countdown_whole_seconds (answering []) 5 (StrOrNum.str "coord") 2 0 _
    (by decide) (by decide) (settle_answering [] 0 2 0 (5 : Nat))).2.2.2.1
    (by decide) (by decide)
  refine ⟨?_, (h 5 (by decide)).2⟩
  simp only [List.range, List.range.loop, List.map_cons, List.map_nil]
  rw [(h 0 (by decide)).1, (h 1 (by decide)).1, (h 2 (by decide)).1, (h 3 (by decide)).1,
    (h 4 (by decide)).1, (h 5 (by decide)).1]
  rfl

/-- C10, where the claim holds: when the only timer alive is the one
`_permitJoinInterval` holds, a successful `permitJoin` with seconds other than 0
and 255 stops it, and the timer it starts is the only one alive afterwards. -/
theorem permitJoin_supersedes_timer (t : Transport) (s : PermitState) (time : ℚ)
    (type : StrOrNum) (addrmode dstaddr : Nat) (rsp : Option Rsp) (old : Nat)
    (hscope : joinScope type = some (addrmode, dstaddr)) (h0 : 0 ≤ time) (h255 : time ≤ 255)
    (hne0 : time ≠ 0) (hne255 : time ≠ 255)
    (hrsp : settle t s.issued.length (permitRequest addrmode dstaddr time) =
      Settled.resolved rsp)
    (hold : s.permitJoinInterval = some old) (hlive : s.intervals = [old])
    (hfresh : old < s.nextTimer) :
    (permitJoin t s time type).2.intervals = [s.nextTimer] ∧
    (permitJoin t s time type).2.permitJoinInterval = some s.nextTimer ∧
    tick (permitJoin t s time type).2 old = (permitJoin t s time type).2 := by
  rw [permitJoin_resolved t s time type addrmode dstaddr rsp hscope h0 h255 hrsp]
  have hi : (permitJoined s addrmode dstaddr time).intervals = [s.nextTimer] := by
    simp [permitJoined, hne0, hne255, clearInterval, hold, hlive]
  refine ⟨hi, by simp [permitJoined, hne0, hne255], ?_⟩
  have hd : (permitJoined s addrmode dstaddr time).intervals.contains old = false := by
    rw [hi]
    simp only [List.contains_cons, List.contains_nil, Bool.or_false, beq_eq_false_iff_ne, ne_eq]
    omega
  simp only [tick, hd, Bool.false_eq_true, if_false]

/-- C10, with 255 as the second value: the comment of `permitJoin` reads
`0xFF always enable`, yet after `permitJoin(60, 'coord')` and
`permitJoin(255, 'coord')` timer 0 is still alive and its next tick takes
`joinTimeLeft` from 255 to 254. -/
theorem permitJoin_always_on_keeps_counting :
    (permitJoin (answering [])
      (permitJoin (answering []) PermitState.fresh 60 (StrOrNum.str "coord")).2 255
      (StrOrNum.str "coord")).2.permitJoinTime = 255 ∧
    (permitJoin (answering [])
      (permitJoin (answering []) PermitState.fresh 60 (StrOrNum.str "coord")).2 255
      (StrOrNum.str "coord")).2.intervals = [0] ∧
    (tick (permitJoin (answering [])
      (permitJoin (answering []) PermitState.fresh 60 (StrOrNum.str "coord")).2 255
      (StrOrNum.str "coord")).2 0).permitJoinTime = 254 := by
  have h1 := permitJoin_resolved (answering []) PermitState.fresh 60 (StrOrNum.str "coord")
    2 0 _ (by decide) (by norm_num) (by norm_num) (settle_answering [] _ 2 0 60)
  have hp1 : permitJoined PermitState.fresh 2 0 60 =
      { permitJoinTime := 60, permitJoinInterval := some 0, intervals := [0], nextTimer := 1,
        issued := [permitRequest 2 0 60], emitted := [60] } := by
    have hne : (60 : ℚ) ≠ 0 ∧ (60 : ℚ) ≠ 255 := by norm_num
    have hf : ⌊(60 : ℚ)⌋ = 60 := Int.floor_natCast 60
    simp only [permitJoined, if_pos hne, hf]
    rfl
  rw [h1, hp1]
  have h2 := permitJoin_resolved (answering [])
    { permitJoinTime := 60, permitJoinInterval := some 0, intervals := [0], nextTimer := 1,
      issued := [permitRequest 2 0 60], emitted := [60] } 255 (StrOrNum.str "coord")
    2 0 _ (by decide) (by norm_num) (by norm_num) (settle_answering [] _ 2 0 255)
  have hp2 : permitJoined
      { permitJoinTime := 60, permitJoinInterval := some 0, intervals := [0], nextTimer := 1,
        issued := [permitRequest 2 0 60], emitted := [60] } 2 0 255 =
      { permitJoinTime := 255, permitJoinInterval := some 0, intervals := [0], nextTimer := 1,
        issued := [permitRequest 2 0 60, permitRequest 2 0 255], emitted := [60, 255] } := by
    have hne : ¬((255 : ℚ) ≠ 0 ∧ (255 : ℚ) ≠ 255) := by norm_num
    have hf : ⌊(255 : ℚ)⌋ = 255 := Int.floor_natCast 255
    simp only [permitJoined, if_neg hne, hf]
    rfl
  rw [h2, hp2]
  refine ⟨rfl, rfl, ?_⟩
  simp [tick, permitJoinCountdown, clearInterval]

/-! ## Removing a device (C11) -/

/-- C11, on the code: for every device and every `cfg`, `remove` throws a
`TypeError` at the first assignment to `rmChildren_reJoin`, which is declared
`const`.  It has then written the defaults into `cfg`, and it has issued no
request. -/
theorem remove_throws_on_const_assignment (t : Transport) (issued : List Request)
    (dev : Device) (cfg : RemoveCfg) :
    (remove t issued dev cfg).result = RemoveResult.threw Rejection.typeError ∧
    (remove t issued dev cfg).issued = issued ∧
    (remove t issued dev cfg).cfg =
      { reJoin := some (cfg.reJoin.getD true), rmChildren := some (cfg.rmChildren.getD false) } := by
  refine ⟨rfl, rfl, ?_⟩
  cases cfg with
  | mk reJoin rmChildren => cases reJoin <;> cases rmChildren <;> rfl

/-- C11, at the failing input: `remove(dev, {})` on a transport that would
confirm the leave issues no request and throws. -/
theorem remove_empty_cfg_issues_nothing :
    remove (answering []) [] sampleDev ⟨none, none⟩ =
      { result := RemoveResult.threw Rejection.typeError, issued := [],
        cfg := ⟨some true, some false⟩ } := by
  decide

theorem request_mgmtLeaveReq (t : Transport) (issued : List Request) (dev : Device)
    (flags : Nat) :
    request t issued (StrOrNum.str "ZDO") (StrOrNum.str "mgmtLeaveReq")
        (ValObj.mgmtLeaveReq dev.nwkAddr dev.ieeeAddr flags) =
      (settle t issued.length (leaveRequest dev flags), issued ++ [leaveRequest dev flags]) := by
  have h1 : upperCase (StrOrNum.str "ZDO") = StrOrNum.str "ZDO" := by decide
  have h2 : isZdo (StrOrNum.str "ZDO") = true := by decide
  simp only [request, settle, leaveRequest, mkRequest, h1, h2]

theorem removeWith_let (t : Transport) (issued : List Request) (dev : Device)
    (cfg : RemoveCfg) :
    removeAsSpecified t issued dev cfg =
      match settle t issued.length (leaveRequest dev (leaveFlags cfg)) with
      | Settled.rejected r =>
        { result := RemoveResult.rejected r,
          issued := issued ++ [leaveRequest dev (leaveFlags cfg)],
          cfg := ⟨some (cfg.reJoin.getD true), some (cfg.rmChildren.getD false)⟩ }
      | Settled.resolved rsp =>
        { result := leaveStatus rsp,
          issued := issued ++ [leaveRequest dev (leaveFlags cfg)],
          cfg := ⟨some (cfg.reJoin.getD true), some (cfg.rmChildren.getD false)⟩ } := by
  cases cfg with
  | mk reJoin rmChildren =>
    cases reJoin with
    | none =>
      cases rmChildren with
      | none =>
        simp only [removeAsSpecified, removeWith, assign, request_mgmtLeaveReq, leaveFlags]
        split <;> simp_all
      | some b =>
        cases b <;>
          simp only [removeAsSpecified, removeWith, assign, request_mgmtLeaveReq, leaveFlags] <;>
          split <;> simp_all
    | some a =>
      cases rmChildren with
      | none =>
        cases a <;>
          simp only [removeAsSpecified, removeWith, assign, request_mgmtLeaveReq, leaveFlags] <;>
          split <;> simp_all
      | some b =>
        cases a <;> cases b <;>
          simp only [removeAsSpecified, removeWith, assign, request_mgmtLeaveReq, leaveFlags] <;>
          split <;> simp_all

/-- C11, what the claim describes: with the flag byte a per-call local, `remove`
issues exactly one `mgmtLeaveReq` carrying the device's network address, its
IEEE address and the flags `(reJoin ? 0x01 : 0) | (rmChildren ? 0x02 : 0)`; it
resolves when the response status is 0 or `'SUCCESS'`, rejects with the status
otherwise, and rejects with the error of a failed request. -/
theorem removeAsSpecified_leaves (t : Transport) (issued : List Request) (dev : Device)
    (cfg : RemoveCfg) :
    (removeAsSpecified t issued dev cfg).issued =
      issued ++ [leaveRequest dev (leaveFlags cfg)] ∧
    (∀ rsp, settle t issued.length (leaveRequest dev (leaveFlags cfg)) =
        Settled.resolved (some rsp) →
      rsp.status = some (StrOrNum.num 0) ∨ rsp.status = some (StrOrNum.str "SUCCESS") →
      (removeAsSpecified t issued dev cfg).result = RemoveResult.resolved) ∧
    (∀ rsp, settle t issued.length (leaveRequest dev (leaveFlags cfg)) =
        Settled.resolved (some rsp) →
      rsp.status ≠ some (StrOrNum.num 0) → rsp.status ≠ some (StrOrNum.str "SUCCESS") →
      (removeAsSpecified t issued dev cfg).result = RemoveResult.rejectedStatus rsp.status) ∧
    (∀ r, settle t issued.length (leaveRequest dev (leaveFlags cfg)) = Settled.rejected r →
      (removeAsSpecified t issued dev cfg).result = RemoveResult.rejected r) := by
  rw [removeWith_let]
  refine ⟨?_, ?_, ?_, ?_⟩
  · split <;> rfl
  · intro rsp hs hst
    rw [hs]
    rcases hst with h | h <;> simp [leaveStatus, h]
  · intro rsp hs h0 h1
    rw [hs]
    simp [leaveStatus, h0, h1]
  · intro r hs
    rw [hs]

/-! ## The transaction counter (C12) -/

theorem nextTransId_fst_eq_snd (transId : Nat) :
    (nextTransId transId).1 = (nextTransId transId).2 := by
  unfold nextTransId
  split <;> rfl

theorem transIdAfter_succ (n : Nat) : transIdAfter (n + 1) = n % 255 + 1 := by
  induction n with
  | zero => rfl
  | succ n ih =>
    show (nextTransId (transIdAfter (n + 1))).2 = (n + 1) % 255 + 1
    rw [ih]
    unfold nextTransId
    split
    · next h => simp only; omega
    · next h => simp only; omega

theorem nthTransId_succ (n : Nat) : nthTransId (n + 1) = n % 255 + 1 := by
  show (nextTransId (transIdAfter n)).1 = n % 255 + 1
  rw [nextTransId_fst_eq_snd]
  exact transIdAfter_succ n

theorem transIdsFrom_after (m : Nat) :
    ∀ a, transIdsFrom (transIdAfter a) m =
      (List.range m).map (fun k => nthTransId (a + k + 1)) := by
  induction m with
  | zero => intro a; rfl
  | succ m ih =>
    intro a
    have h := ih (a + 1)
    simp only [transIdAfter] at h
    simp only [transIdsFrom, h, List.range_succ_eq_map, List.map_cons, List.map_map]
    refine congrArg₂ List.cons rfl ?_
    apply List.map_congr_left
    intro k _
    simp only [Function.comp]
    congr 1
    omega

theorem returnedTo_eq (i : Nat) (calls : List Nat) :
    ∀ w : TransIds, returnedTo i w calls = transIdsFrom (w i) (calls.count i) := by
  induction calls with
  | nil => intro w; rfl
  | cons j calls ih =>
    intro w
    by_cases hj : j = i
    · subst hj
      simp only [returnedTo, if_true, ih, callNextTransId, Function.update_same,
        List.count_cons_self, transIdsFrom]
    · have hne : (j == i) = false := by simpa using hj
      simp only [returnedTo, if_neg hj, ih, callNextTransId, Function.update_noteq (Ne.symm hj),
        List.count_cons, hne, Bool.false_eq_true, if_false, Nat.add_zero]

/-- C12: for every `n ≥ 1` the `n`-th call of `nextTransId` on a Controller just
constructed returns `((n - 1) mod 255) + 1`; the value lies in [1, 255], so 0
is never returned, and the value returned after 255 is 1.  The counter belongs
to the instance: whatever calls are made on other instances in between, the
values returned to instance `i` are those of the first, second, ... call on a
Controller of its own. -/
theorem nextTransId_nth (n : Nat) (hn : 1 ≤ n) :
    nthTransId n = (n - 1) % 255 + 1 ∧
    1 ≤ nthTransId n ∧ nthTransId n ≤ 255 ∧
    (nthTransId n = 255 → nthTransId (n + 1) = 1) ∧
    (∀ (i : Nat) (calls : List Nat),
      returnedTo i TransIds.fresh calls =
        (List.range (calls.count i)).map (fun k => nthTransId (k + 1))) := by
  obtain ⟨m, rfl⟩ : ∃ m, n = m + 1 := ⟨n - 1, by omega⟩
  have h := nthTransId_succ m
  have h2 := nthTransId_succ (m + 1)
  refine ⟨by simpa using h, by omega, by omega, fun h255 => by omega, fun i calls => ?_⟩
  rw [returnedTo_eq]
  have := transIdsFrom_after (calls.count i) 0
  simpa [transIdAfter, TransIds.fresh] using this

/-- C12, witness: the 256th call returns 1, the value after 255, and with calls
on two instances interleaved each instance counts on its own. -/
theorem nextTransId_nth_witness :
    nthTransId 256 = 1 ∧ nthTransId 255 = 255 ∧
    returnedTo 0 TransIds.fresh [0, 1, 0, 1, 1, 0] = [1, 2, 3] :=
  ⟨(nextTransId_nth 256 (by decide)).1, (nextTransId_nth 255 (by decide)).1, by decide⟩

end Controller
